import Mathlib

/-!
Verification development for the COVID data reconciliation pipeline
(dataframe_cleaner.py, dataframe_combiner.py, data_loader.py).

Tables are modelled as lists of records.  A pandas NaN cell is an
`Option` field holding `none`.  Numeric cells are rationals, which model
the exact values of the pandas arithmetic used here (sums, quarters and
per-100000 rates of integer-derived data).  Division results that can be
non-finite in pandas (x / 0, x / NaN) are modelled by the `FVal` type,
which mirrors the relevant IEEE special values exactly.
-/

namespace CovidPipeline

/-- Calendar date, modelling a pandas Timestamp at day resolution. -/
structure DateV where
  y : Int
  m : Int
  d : Int
deriving DecidableEq, Repr

/-- Lexicographic order on dates, as pandas orders Timestamps. -/
def dateLE (a b : DateV) : Bool :=
  if a.y ≠ b.y then decide (a.y < b.y)
  else if a.m ≠ b.m then decide (a.m < b.m)
  else decide (a.d ≤ b.d)

/-- Lexicographic order on char lists by code point, as Python compares strings. -/
def charsLE : List Char → List Char → Bool
  | [], _ => true
  | _ :: _, [] => false
  | a :: as, b :: bs => if a = b then charsLE as bs else decide (a < b)

/-- String order by code points, as pandas sorts string group keys. -/
def strLE (s t : String) : Bool := charsLE s.data t.data

/-- Value of a float cell that may be a finite number, NaN or an infinity.
Models the IEEE results of the divisions performed by the pipeline. -/
inductive FVal where
  | fin (q : ℚ)
  | nan
  | inf
  | neginf
deriving DecidableEq, Repr

/-- IEEE division on `FVal` for the cases arising in the pipeline:
finite / finite (with signed-infinity and NaN results at a zero
denominator) and NaN propagation. -/
def fdiv : FVal → FVal → FVal
  | .fin a, .fin b =>
      if b = 0 then
        if a = 0 then .nan else if 0 < a then .inf else .neginf
      else .fin (a / b)
  | .nan, _ => .nan
  | _, .nan => .nan
  | .inf, .fin b => if b = 0 then .nan else if 0 < b then .inf else .neginf
  | .neginf, .fin b => if b = 0 then .nan else if 0 < b then .neginf else .inf
  | .fin _, .inf => .fin 0
  | .fin _, .neginf => .fin 0
  | .inf, .inf => .nan
  | .inf, .neginf => .nan
  | .neginf, .inf => .nan
  | .neginf, .neginf => .nan

/-- IEEE multiplication on `FVal` for the cases arising in the pipeline
(one operand is the positive constant 100000). -/
def fmul : FVal → FVal → FVal
  | .fin a, .fin b => .fin (a * b)
  | .nan, _ => .nan
  | _, .nan => .nan
  | .inf, .fin b => if b = 0 then .nan else if 0 < b then .inf else .neginf
  | .neginf, .fin b => if b = 0 then .nan else if 0 < b then .neginf else .inf
  | .fin a, .inf => if a = 0 then .nan else if 0 < a then .inf else .neginf
  | .fin a, .neginf => if a = 0 then .nan else if 0 < a then .neginf else .inf
  | .inf, .inf => .inf
  | .inf, .neginf => .neginf
  | .neginf, .inf => .neginf
  | .neginf, .neginf => .inf

/-- View an optional rational cell as a float value (NaN when missing). -/
def toF : Option ℚ → FVal
  | none => .nan
  | some q => .fin q

/-- Sum of the present values of an optional-rational column, as pandas
`sum` skips NaN cells (an all-NaN or empty group sums to 0). -/
def sumVal {α : Type} (v : α → Option ℚ) (rows : List α) : ℚ :=
  (rows.filterMap v).sum

/-- First-occurrence deduplication, as pandas `unique` keeps the order of
first appearance. -/
def uniqueFirstAux {β : Type} [DecidableEq β] : List β → List β → List β
  | [], _ => []
  | x :: xs, seen =>
      if x ∈ seen then uniqueFirstAux xs seen
      else x :: uniqueFirstAux xs (x :: seen)

/-- First-occurrence deduplication of a list. -/
def uniqueFirst {β : Type} [DecidableEq β] (l : List β) : List β :=
  uniqueFirstAux l []

/-- Sort by a boolean comparison, modelling the lexicographic sorting of
group keys done by pandas groupby and outer merge. -/
def sortKeys {κ : Type} (le : κ → κ → Bool) (ks : List κ) : List κ :=
  List.insertionSort (fun a b => le a b = true) ks

/-- Group keys of a table: the distinct non-null keys, sorted.  Rows whose
key is null are dropped, as pandas groupby drops NaN group keys. -/
def groupKeys {α κ : Type} [DecidableEq κ] (le : κ → κ → Bool)
    (key : α → Option κ) (rows : List α) : List κ :=
  sortKeys le ((rows.filterMap key).dedup)

/-- Test a predicate under an optional key, false at a null key. -/
def optTest {κ : Type} (p : κ → Bool) : Option κ → Bool
  | none => false
  | some k => p k

theorem sumVal_nil {α : Type} (v : α → Option ℚ) : sumVal v [] = 0 := rfl

theorem sumVal_cons {α : Type} (v : α → Option ℚ) (r : α) (l : List α) :
    sumVal v (r :: l) = (v r).getD 0 + sumVal v l := by
  unfold sumVal
  cases h : v r <;> simp [List.filterMap_cons, h]

theorem sumVal_append {α : Type} (v : α → Option ℚ) (l₁ l₂ : List α) :
    sumVal v (l₁ ++ l₂) = sumVal v l₁ + sumVal v l₂ := by
  unfold sumVal
  simp [List.filterMap_append]

theorem sumVal_perm {α : Type} (v : α → Option ℚ) {l₁ l₂ : List α}
    (h : l₁.Perm l₂) : sumVal v l₁ = sumVal v l₂ :=
  List.Perm.sum_eq (List.Perm.filterMap v h)

/-- Splitting a sum over a filter by two pointwise-disjoint tests. -/
theorem sumVal_filter_disjoint {α : Type} (v : α → Option ℚ)
    (f g : α → Bool) (rows : List α)
    (hdis : ∀ r, ¬(f r = true ∧ g r = true)) :
    sumVal v (rows.filter f) + sumVal v (rows.filter g)
      = sumVal v (rows.filter fun r => f r || g r) := by
  induction rows with
  | nil => simp [sumVal]
  | cons r rs ih =>
      have hd := hdis r
      cases hf : f r <;> cases hg : g r <;>
        simp [List.filter_cons, hf, hg, sumVal_cons, ← ih] <;> ring_nf
      · exact absurd ⟨hf, hg⟩ hd

theorem sumVal_filter_false {α : Type} (v : α → Option ℚ)
    (f : α → Bool) (rows : List α) (h : ∀ r ∈ rows, f r = false) :
    sumVal v (rows.filter f) = 0 := by
  have : rows.filter f = [] := by
    rw [List.filter_eq_nil_iff]
    intro a ha
    simp [h a ha]
  rw [this, sumVal_nil]

/-- Partition lemma: summing a column group-by-group over a duplicate-free
key list equals summing over the rows whose key lies in that list. -/
theorem sum_over_groups {α κ : Type} [DecidableEq κ]
    (key : α → Option κ) (v : α → Option ℚ) (rows : List α) :
    ∀ ks : List κ, ks.Nodup →
      (ks.map fun k => sumVal v (rows.filter fun r => decide (key r = some k))).sum
        = sumVal v (rows.filter fun r => optTest (fun k => decide (k ∈ ks)) (key r)) := by
  intro ks
  induction ks with
  | nil =>
      intro _
      simp
      rw [sumVal_filter_false]
      intro r _
      cases h : key r <;> simp [optTest, h]
  | cons k ks ih =>
      intro hnd
      have hk : k ∉ ks := (List.nodup_cons.mp hnd).1
      have htl : ks.Nodup := (List.nodup_cons.mp hnd).2
      rw [List.map_cons, List.sum_cons, ih htl]
      rw [sumVal_filter_disjoint v _ _ rows ?hdis]
      · congr 1
        apply List.filter_congr
        intro r _
        cases h : key r with
        | none => simp [optTest, h]
        | some k2 =>
            by_cases hkk : k2 = k <;> simp [optTest, h, hkk]
      · intro r hand
        obtain ⟨h1, h2⟩ := hand
        have hk2 : key r = some k := by simpa using h1
        rw [hk2] at h2
        simp [optTest] at h2
        exact hk h2

/-!  Population cleaner (dataframe_cleaner.py, clean_population_df). -/

/-- Raw population row from the CBS extract.  `TotaleBevolking_1` models
the cell after `pd.to_numeric(errors="coerce")`: `none` for an
unparseable or missing value (the numeric string grammar itself is the
I/O layer's concern). -/
structure PopInRow where
  RegioS : String
  Perioden : String
  TotaleBevolking_1 : Option ℚ
deriving DecidableEq, Repr

/-- Parsed population row after column renaming and type conversion. -/
structure PopRow where
  Municipality_code : String
  Year : Int
  Population : Option ℚ
deriving DecidableEq, Repr

/-- Harmonized population row produced by the final (code, year) group-by. -/
structure PopOutRow where
  Municipality_code : String
  Year : Int
  Population : ℚ
deriving DecidableEq, Repr

/-- Digit value of a character, if it is a decimal digit. -/
def digitVal (c : Char) : Option Nat :=
  if c.isDigit then some (c.toNat - 48) else none

/-- First run of four consecutive decimal digits in a char list, as the
regular expression of four digit classes matches in `Series.str.extract`. -/
def extract4 : List Char → Option Nat
  | c1 :: c2 :: c3 :: c4 :: rest =>
      match digitVal c1, digitVal c2, digitVal c3, digitVal c4 with
      | some a, some b, some c, some d => some (a * 1000 + b * 100 + c * 10 + d)
      | _, _, _, _ => extract4 (c2 :: c3 :: c4 :: rest)
  | _ => none

/-- Parsing stage of clean_population_df: keep municipality rows (region
code starting with GM), rename columns, extract the four-digit year and
cast to integer.  `astype(int)` raises when the extraction found no
digits, modelled by `none` for the whole table. -/
def popParse (rows : List PopInRow) : Option (List PopRow) :=
  (rows.filter fun r => r.RegioS.startsWith ("GM")).mapM fun r =>
    (extract4 r.Perioden.data).map fun y =>
      { Municipality_code := r.RegioS, Year := (y : Int),
        Population := r.TotaleBevolking_1 }

/-- Fused municipality code replacements of clean_population_df. -/
def fused_municipality_map : List (String × String) :=
  [("GM0370", "GM0439"),
   ("GM0398", "GM1980"),
   ("GM0416", "GM1980"),
   ("GM0457", "GM0363"),
   ("GM0501", "GM1992"),
   ("GM0530", "GM1992"),
   ("GM0614", "GM1992"),
   ("GM0756", "GM1982"),
   ("GM0786", "GM1982"),
   ("GM0815", "GM1982"),
   ("GM0856", "GM1991"),
   ("GM1684", "GM1982"),
   ("GM1685", "GM1991"),
   ("GM1702", "GM1982"),
   ("GM0003", "GM1979"),
   ("GM0010", "GM1979"),
   ("GM0024", "GM1979")]

/-- One application of `Series.replace` with the fused-municipality map. -/
def replaceCode (c : String) : String :=
  match fused_municipality_map.lookup c with
  | some n => n
  | none => c

/-- The dissolved municipality Haaren. -/
def haaren_code : String := "GM0788"

/-- The four municipalities receiving a quarter of the Haaren population. -/
def receiving_codes : List String :=
  ["GM0824", "GM0865", "GM0757", "GM0855"]

/-- Row test used by the Haaren redistribution masks. -/
def matchKey (c : String) (y : Int) (r : PopRow) : Bool :=
  r.Municipality_code == c && r.Year == y

/-- One iteration of the inner redistribution loop: if the receiving code
has a row for the year, add the split population to every such row
(`df.loc[mask] += split`, leaving a NaN cell NaN); otherwise append a new
row carrying exactly the split population. -/
def applySplitCode (df : List PopRow) (y : Int) (split : ℚ) (c : String) :
    List PopRow :=
  if df.any (matchKey c y) then
    df.map fun r =>
      if matchKey c y r then { r with Population := r.Population.map (· + split) }
      else r
  else
    df ++ [{ Municipality_code := c, Year := y, Population := some split }]

/-- The Haaren redistribution of clean_population_df: for every year in
which Haaren has a valid (non-null) population, a quarter of the first
such value is pushed into each of the four receiving codes.  The valid
rows and years are computed from the table before the loop starts, as in
the source. -/
def redistributeHaaren (df : List PopRow) : List PopRow :=
  let valid := df.filter fun r =>
    r.Municipality_code == haaren_code && r.Population.isSome
  let years := uniqueFirst (valid.map (·.Year))
  years.foldl
    (fun acc y =>
      let p := (((valid.filter fun r => r.Year == y).head?).bind
        (·.Population)).getD 0
      let split := p / 4
      receiving_codes.foldl (fun acc2 c => applySplitCode acc2 y split c) acc)
    df

/-- Pair of code and year, the key of the final population group-by. -/
def popKey (r : PopRow) : Option (String × Int) :=
  some (r.Municipality_code, r.Year)

/-- Order on population group keys (code, then year). -/
def popKeyLE (a b : String × Int) : Bool :=
  if a.1 ≠ b.1 then strLE a.1 b.1 else decide (a.2 ≤ b.2)

/-- Harmonization stage of clean_population_df: replace fused codes,
redistribute Haaren, drop the Haaren rows, and aggregate the population
by (code, year). -/
def popHarmonize (df0 : List PopRow) : List PopOutRow :=
  let df1 := df0.map fun r => { r with Municipality_code := replaceCode r.Municipality_code }
  let df2 := redistributeHaaren df1
  let df3 := df2.filter fun r => r.Municipality_code ≠ haaren_code
  (groupKeys popKeyLE popKey df3).map fun k =>
    { Municipality_code := k.1, Year := k.2,
      Population := sumVal (·.Population)
        (df3.filter fun r => decide (popKey r = some k)) }

/-- clean_population_df: parse then harmonize; `none` models the
`astype(int)` exception on a year cell without four digits. -/
def clean_population_df (raw : List PopInRow) : Option (List PopOutRow) :=
  (popParse raw).map popHarmonize

/-!  Case and hospital cleaners (dataframe_cleaner.py). -/

/-- Raw case row.  `Date_of_publication` models the column after
`pd.to_datetime(errors="coerce")`: `none` is an unparseable or missing
date (the datetime string grammar is the I/O layer's concern).  Metric
cells may be missing. -/
structure CaseInRow where
  Date_of_publication : Option DateV
  Municipality_code : Option String
  Municipality_name : Option String
  Province : Option String
  Total_reported : Option ℚ
  Deceased : Option ℚ
deriving DecidableEq, Repr

/-- Cleaned case row: one row per (date, code, name, province) group. -/
structure CaseOutRow where
  Date : DateV
  Municipality_code : String
  Municipality_name : String
  Province : String
  Total_reported : ℚ
  Deceased : ℚ
  Year : Int
  Month : Int × Int
deriving DecidableEq, Repr

/-- The three legacy codes merged into Voorne aan Zee. -/
def old_codes : List String := ["GM0501", "GM0530", "GM0614"]

/-- The successor code of the three-way merge. -/
def new_code : String := "GM1992"

/-- The successor name of the three-way merge. -/
def new_name : String := "Voorne aan Zee"

/-- `Series.replace(old_codes, new_code)` on the code column. -/
def replaceCaseCode (c : String) : String :=
  if c ∈ old_codes then new_code else c

/-- `Series.replace` with the name dictionary on the name column. -/
def replaceCaseName (n : String) : String :=
  if n == "Brielle" || n == "Hellevoetsluis" || n == "Westvoorne" then new_name
  else n

/-- Case row after the dropna and replace steps, with the key fields
still optional (the date and province may be missing). -/
structure CaseMidRow where
  Date : Option DateV
  Municipality_code : String
  Municipality_name : String
  Province : Option String
  Total_reported : Option ℚ
  Deceased : Option ℚ
deriving DecidableEq, Repr

/-- Group key of the case group-by: (Date, code, name, Province); null
when the date or province cell is missing, and such rows are dropped by
the group-by. -/
def caseKey (r : CaseMidRow) : Option (DateV × String × String × String) := do
  let d ← r.Date
  let p ← r.Province
  pure (d, r.Municipality_code, r.Municipality_name, p)

/-- Order on case group keys, lexicographic in the pandas key order. -/
def caseKeyLE (a b : DateV × String × String × String) : Bool :=
  if a.1 ≠ b.1 then dateLE a.1 b.1
  else if a.2.1 ≠ b.2.1 then strLE a.2.1 b.2.1
  else if a.2.2.1 ≠ b.2.2.1 then strLE a.2.2.1 b.2.2.1
  else strLE a.2.2.2 b.2.2.2

/-- Dropna and merge steps of clean_cases_df: drop rows with a missing
code or name, replace the three legacy codes and names. -/
def caseMid (rows : List CaseInRow) : List CaseMidRow :=
  rows.filterMap fun r =>
    match r.Municipality_code, r.Municipality_name with
    | some c, some n =>
        some { Date := r.Date_of_publication,
               Municipality_code := replaceCaseCode c,
               Municipality_name := replaceCaseName n,
               Province := r.Province,
               Total_reported := r.Total_reported,
               Deceased := r.Deceased }
    | _, _ => none

/-- clean_cases_df: date conversion, dropna on code and name, three-way
merge of Brielle, Hellevoetsluis and Westvoorne into Voorne aan Zee,
re-aggregation by (Date, code, name, Province) summing the two metrics,
and derivation of Year and Month from the date. -/
def clean_cases_df (rows : List CaseInRow) : List CaseOutRow :=
  let mid := caseMid rows
  (groupKeys caseKeyLE caseKey mid).map fun k =>
    { Date := k.1,
      Municipality_code := k.2.1,
      Municipality_name := k.2.2.1,
      Province := k.2.2.2,
      Total_reported := sumVal (·.Total_reported)
        (mid.filter fun r => decide (caseKey r = some k)),
      Deceased := sumVal (·.Deceased)
        (mid.filter fun r => decide (caseKey r = some k)),
      Year := k.1.y,
      Month := (k.1.y, k.1.m) }

/-- Raw hospital row; `Date_of_statistics` models the column after
`pd.to_datetime(errors="coerce")`. -/
structure HospInRow where
  Date_of_statistics : Option DateV
  Municipality_code : Option String
  Municipality_name : Option String
  Hospital_admission : Option ℚ
deriving DecidableEq, Repr

/-- Cleaned hospital row: one row per (date, code, name) group. -/
structure HospOutRow where
  Date : DateV
  Municipality_code : String
  Municipality_name : String
  Hospital_admission : ℚ
  Year : Int
  Month : Int × Int
deriving DecidableEq, Repr

/-- Hospital row after the dropna step. -/
structure HospMidRow where
  Date : Option DateV
  Municipality_code : String
  Municipality_name : String
  Hospital_admission : Option ℚ
deriving DecidableEq, Repr

/-- Group key of the hospital group-by: (Date, code, name). -/
def hospKey (r : HospMidRow) : Option (DateV × String × String) := do
  let d ← r.Date
  pure (d, r.Municipality_code, r.Municipality_name)

/-- Order on hospital group keys. -/
def hospKeyLE (a b : DateV × String × String) : Bool :=
  if a.1 ≠ b.1 then dateLE a.1 b.1
  else if a.2.1 ≠ b.2.1 then strLE a.2.1 b.2.1
  else strLE a.2.2 b.2.2

/-- Dropna step of clean_hospital_df. -/
def hospMid (rows : List HospInRow) : List HospMidRow :=
  rows.filterMap fun r =>
    match r.Municipality_code, r.Municipality_name with
    | some c, some n =>
        some { Date := r.Date_of_statistics,
               Municipality_code := c,
               Municipality_name := n,
               Hospital_admission := r.Hospital_admission }
    | _, _ => none

/-- clean_hospital_df: date conversion, dropna on code and name,
aggregation by (Date, code, name) summing admissions, and derivation of
Year and Month. -/
def clean_hospital_df (rows : List HospInRow) : List HospOutRow :=
  let mid := hospMid rows
  (groupKeys hospKeyLE hospKey mid).map fun k =>
    { Date := k.1,
      Municipality_code := k.2.1,
      Municipality_name := k.2.2,
      Hospital_admission := sumVal (·.Hospital_admission)
        (mid.filter fun r => decide (hospKey r = some k)),
      Year := k.1.y,
      Month := (k.1.y, k.1.m) }

/-!  Column typing (dataframe_cleaner.py, cast_column_types). -/

/-- Truncation toward zero, as `astype(int)` truncates a float. -/
def ratTrunc (q : ℚ) : Int :=
  if 0 ≤ q then Int.floor q else Int.ceil q

/-- `fillna(0).astype(int)` on one numeric cell. -/
def castNum (v : Option ℚ) : Int := ratTrunc (v.getD 0)

/-- Untyped row presented to cast_column_types, holding the columns the
function touches: Year is already integral, Month already a period, and
the four metric columns are nullable numerics. -/
structure TypedInRow where
  Year : Int
  Month : Int × Int
  Total_reported : Option ℚ
  Deceased : Option ℚ
  Hospital_admission : Option ℚ
  Population : Option ℚ
deriving DecidableEq, Repr

/-- Typed row produced by cast_column_types. -/
structure TypedOutRow where
  Year : Int
  Month : Int × Int
  Total_reported : Int
  Deceased : Int
  Hospital_admission : Int
  Population : Int
deriving DecidableEq, Repr

/-- cast_column_types: Year stays integral, Month stays a period, and
each of the four metric columns is filled with 0 at missing cells and
cast to integer. -/
def cast_column_types (rows : List TypedInRow) : List TypedOutRow :=
  rows.map fun r =>
    { Year := r.Year,
      Month := r.Month,
      Total_reported := castNum r.Total_reported,
      Deceased := castNum r.Deceased,
      Hospital_admission := castNum r.Hospital_admission,
      Population := castNum r.Population }

/-!  Cross-source joiner (dataframe_combiner.py). -/

/-- Row of the outer merge of the hospital column selection with the case
column selection on (Date, Municipality_code).  Non-key cells from an
unmatched side are missing. -/
structure CovidRow where
  Date : DateV
  Municipality_code : String
  Municipality_name : Option String
  Hospital_admission : Option ℚ
  Province : Option String
  Total_reported : Option ℚ
  Deceased : Option ℚ
  Year : Option Int
  Month : Option (Int × Int)
deriving DecidableEq, Repr

/-- Merge key of the case/hospital join. -/
def covidKeyLE (a b : DateV × String) : Bool :=
  if a.1 ≠ b.1 then dateLE a.1 b.1 else strLE a.2 b.2

/-- Merged row built from a hospital row and a case row with equal key. -/
def mergeBoth (h : HospOutRow) (c : CaseOutRow) : CovidRow :=
  { Date := h.Date,
    Municipality_code := h.Municipality_code,
    Municipality_name := some h.Municipality_name,
    Hospital_admission := some h.Hospital_admission,
    Province := some c.Province,
    Total_reported := some c.Total_reported,
    Deceased := some c.Deceased,
    Year := some c.Year,
    Month := some c.Month }

/-- Merged row for a hospital row with no case match. -/
def mergeLeft (h : HospOutRow) : CovidRow :=
  { Date := h.Date,
    Municipality_code := h.Municipality_code,
    Municipality_name := some h.Municipality_name,
    Hospital_admission := some h.Hospital_admission,
    Province := none, Total_reported := none, Deceased := none,
    Year := none, Month := none }

/-- Merged row for a case row with no hospital match. -/
def mergeRight (c : CaseOutRow) : CovidRow :=
  { Date := c.Date,
    Municipality_code := c.Municipality_code,
    Municipality_name := none,
    Hospital_admission := none,
    Province := some c.Province,
    Total_reported := some c.Total_reported,
    Deceased := some c.Deceased,
    Year := some c.Year,
    Month := some c.Month }

/-- All non-key cells of a merged row are present. -/
def covidAllSome (r : CovidRow) : Bool :=
  r.Municipality_name.isSome && r.Hospital_admission.isSome &&
  r.Province.isSome && r.Total_reported.isSome && r.Deceased.isSome &&
  r.Year.isSome && r.Month.isSome

/-- combine_cases_and_hospital_data: outer merge of the hospital columns
(Date, code, name, admissions) with the case columns (Date, code,
province, two metrics, Year, Month) on (Date, code), sorting the union
of keys as a pandas outer merge does, followed by `dropna()`. -/
def combine_cases_and_hospital_data
    (df_cases : List CaseOutRow) (df_hospital : List HospOutRow) :
    List CovidRow :=
  let hkey := fun (h : HospOutRow) => (h.Date, h.Municipality_code)
  let ckey := fun (c : CaseOutRow) => (c.Date, c.Municipality_code)
  let ks := sortKeys covidKeyLE
    ((df_hospital.map hkey ++ df_cases.map ckey).dedup)
  let merged := ks.flatMap fun k =>
    let hm := df_hospital.filter fun h => decide (hkey h = k)
    let cm := df_cases.filter fun c => decide (ckey c = k)
    match hm, cm with
    | [], cs => cs.map mergeRight
    | hs, [] => hs.map mergeLeft
    | hs, cs => hs.flatMap fun h => cs.map (mergeBoth h)
  merged.filter covidAllSome

/-- Final joined row produced by add_population_and_calculate_incidence.
The population cell is missing when the left join found no population
record for the (code, year) key. -/
structure FinalRow where
  Date : DateV
  Month : Option (Int × Int)
  Year : Option Int
  Municipality_code : String
  Municipality_name : Option String
  Province : Option String
  Population : Option ℚ
  Hospital_admission : Option ℚ
  Total_reported : Option ℚ
  Deceased : Option ℚ
  Incidence_rate_hospital_admission : FVal
  Incidence_rate_cases : FVal
  Incidence_rate_deaths : FVal
deriving DecidableEq, Repr

/-- Rate computation of add_population_and_calculate_incidence:
metric / Population * 100000 with float semantics. -/
def combRate (metric : Option ℚ) (pop : Option ℚ) : FVal :=
  fmul (fdiv (toF metric) (toF pop)) (.fin 100000)

/-- Build a final row from a merged covid row and an optional population. -/
def mkFinalRow (c : CovidRow) (pop : Option ℚ) : FinalRow :=
  { Date := c.Date,
    Month := c.Month,
    Year := c.Year,
    Municipality_code := c.Municipality_code,
    Municipality_name := c.Municipality_name,
    Province := c.Province,
    Population := pop,
    Hospital_admission := c.Hospital_admission,
    Total_reported := c.Total_reported,
    Deceased := c.Deceased,
    Incidence_rate_hospital_admission := combRate c.Hospital_admission pop,
    Incidence_rate_cases := combRate c.Total_reported pop,
    Incidence_rate_deaths := combRate c.Deceased pop }

/-- add_population_and_calculate_incidence: left join of the covid table
with the population table on (Municipality_code, Year), then the three
incidence-rate columns, then the column reordering (the record carries
the canonical column order). -/
def add_population_and_calculate_incidence
    (df_covid : List CovidRow) (df_population : List PopOutRow) :
    List FinalRow :=
  df_covid.flatMap fun c =>
    let ms := df_population.filter fun p =>
      p.Municipality_code == c.Municipality_code &&
      decide (some p.Year = c.Year)
    match ms with
    | [] => [mkFinalRow c none]
    | ps => ps.map fun p => mkFinalRow c (some p.Population)

/-!  Geo-aggregator (data_loader.py). -/

/-- Municipality boundary row of the geometry source; the geometry is an
opaque token. -/
structure GeoRow where
  Municipality_code : String
  Municipality_name : String
  Province : String
  geometry : Int
deriving DecidableEq, Repr

/-- Rate recomputation of create_municipality_geodata:
column / Population * 100000 with float semantics. -/
def geoRate (metric : Option ℚ) (pop : Option ℚ) : FVal :=
  fmul (fdiv (toF metric) (toF pop)) (.fin 100000)

/-- The per-row rate overwrite performed by create_municipality_geodata
before the geometry merge. -/
def recomputeRates (f : FinalRow) : FinalRow :=
  { f with
    Incidence_rate_cases := geoRate f.Total_reported f.Population,
    Incidence_rate_deaths := geoRate f.Deceased f.Population,
    Incidence_rate_hospital_admission :=
      geoRate f.Hospital_admission f.Population }

/-- Row of the municipality geodata: a boundary row joined to the covid
rows of its code; `data` is missing when the left join found no covid row
for the code. -/
structure MunGeoRow where
  Municipality_code : String
  Province : String
  geometry : Int
  data : Option FinalRow
deriving DecidableEq, Repr

/-- create_municipality_geodata: recompute the three incidence rates on a
copy of the covid table, then left-merge the boundary table with it on
Municipality_code (boundary rows keep their order; the duplicate name
column from the boundary side is dropped). -/
def create_municipality_geodata
    (df : List FinalRow) (gdf_geo : List GeoRow) : List MunGeoRow :=
  let df_mun := df.map recomputeRates
  gdf_geo.flatMap fun g =>
    let ms := df_mun.filter fun f =>
      f.Municipality_code == g.Municipality_code
    match ms with
    | [] => [{ Municipality_code := g.Municipality_code,
               Province := g.Province, geometry := g.geometry, data := none }]
    | fs => fs.map fun f =>
        { Municipality_code := g.Municipality_code,
          Province := g.Province, geometry := g.geometry, data := some f }

/-- Municipality-level GeoDataFrame row as consumed by the province and
national aggregators: the columns the group-bys and sums read, each
possibly missing, plus an opaque nullable geometry. -/
structure GdfMunRow where
  Date : Option DateV
  Year : Option Int
  Month : Option (Int × Int)
  Province : Option String
  Total_reported : Option ℚ
  Deceased : Option ℚ
  Hospital_admission : Option ℚ
  Population : Option ℚ
  geometry : Option Int
deriving DecidableEq, Repr

/-- Rate from aggregated sums, as computed identically at the province
and national levels: sum / population-sum * 100000 with float
semantics (the operands are plain group sums, never NaN). -/
def rateOfSums (metric pop : ℚ) : FVal :=
  fmul (fdiv (.fin metric) (.fin pop)) (.fin 100000)

/-- Province-level statistics row of create_province_geodata. -/
structure ProvStatRow where
  Date : DateV
  Year : Int
  Month : Int × Int
  Province : String
  Total_reported : ℚ
  Deceased : ℚ
  Hospital_admission : ℚ
  Population : ℚ
  Incidence_rate_cases : FVal
  Incidence_rate_deaths : FVal
  Incidence_rate_hospital : FVal
deriving DecidableEq, Repr

/-- Group key of the province aggregation: (Date, Year, Month, Province). -/
def provKey (r : GdfMunRow) : Option (DateV × Int × (Int × Int) × String) := do
  let d ← r.Date
  let y ← r.Year
  let m ← r.Month
  let p ← r.Province
  pure (d, y, m, p)

/-- Order on province group keys. -/
def provKeyLE (a b : DateV × Int × (Int × Int) × String) : Bool :=
  if a.1 ≠ b.1 then dateLE a.1 b.1
  else if a.2.1 ≠ b.2.1 then decide (a.2.1 < b.2.1)
  else if a.2.2.1 ≠ b.2.2.1 then
    (if a.2.2.1.1 ≠ b.2.2.1.1 then decide (a.2.2.1.1 < b.2.2.1.1)
     else decide (a.2.2.1.2 < b.2.2.1.2))
  else strLE a.2.2.2 b.2.2.2

/-- One aggregated province row: the four metric sums of the group and
the rates recomputed from those sums. -/
def mkProvStatRow (gdf_mun : List GdfMunRow)
    (k : DateV × Int × (Int × Int) × String) : ProvStatRow :=
  let grp := gdf_mun.filter fun r => decide (provKey r = some k)
  let t := sumVal (·.Total_reported) grp
  let dc := sumVal (·.Deceased) grp
  let h := sumVal (·.Hospital_admission) grp
  let p := sumVal (·.Population) grp
  { Date := k.1, Year := k.2.1, Month := k.2.2.1, Province := k.2.2.2,
    Total_reported := t, Deceased := dc, Hospital_admission := h,
    Population := p,
    Incidence_rate_cases := rateOfSums t p,
    Incidence_rate_deaths := rateOfSums dc p,
    Incidence_rate_hospital := rateOfSums h p }

/-- The grouped-and-aggregated province statistics of
create_province_geodata, with the recomputed rates. -/
def provStats (gdf_mun : List GdfMunRow) : List ProvStatRow :=
  (groupKeys provKeyLE provKey gdf_mun).map (mkProvStatRow gdf_mun)

/-- Province geodata row: dissolved geometry joined (left, from the
shapes side) with the aggregated statistics. -/
structure ProvGeoRow where
  Province : String
  geometry : List Int
  data : Option ProvStatRow
deriving DecidableEq, Repr

/-- The dissolved province shapes: rows with a present province and
geometry, grouped by province (sorted, as dissolve sorts group keys),
each carrying the union of its member geometries. -/
def provShapes (gdf_mun : List GdfMunRow) : List (String × List Int) :=
  let rs := gdf_mun.filter fun r => r.Province.isSome && r.geometry.isSome
  (groupKeys strLE (fun r => r.Province) rs).map fun p =>
    (p, (rs.filter fun r => decide (r.Province = some p)).filterMap (·.geometry))

/-- create_province_geodata: aggregate the statistics by (Date, Year,
Month, Province), recompute the rates from the sums, dissolve the
member geometries per province, and left-merge the shapes with the
statistics on Province. -/
def create_province_geodata (gdf_mun : List GdfMunRow) : List ProvGeoRow :=
  let stats := provStats gdf_mun
  (provShapes gdf_mun).flatMap fun s =>
    let ms := stats.filter fun st => st.Province == s.1
    match ms with
    | [] => [{ Province := s.1, geometry := s.2, data := none }]
    | sts => sts.map fun st =>
        { Province := s.1, geometry := s.2, data := some st }

/-- National-level row of create_national_geodata; the geometry is the
union of all municipality geometries, repeated on every row. -/
structure NatRow where
  Date : DateV
  Year : Int
  Month : Int × Int
  Total_reported : ℚ
  Deceased : ℚ
  Hospital_admission : ℚ
  Population : ℚ
  Incidence_rate_cases : FVal
  Incidence_rate_deaths : FVal
  Incidence_rate_hospital : FVal
  geometry : List Int
deriving DecidableEq, Repr

/-- Group key of the national aggregation: (Date, Year, Month). -/
def natKey (r : GdfMunRow) : Option (DateV × Int × (Int × Int)) := do
  let d ← r.Date
  let y ← r.Year
  let m ← r.Month
  pure (d, y, m)

/-- Order on national group keys. -/
def natKeyLE (a b : DateV × Int × (Int × Int)) : Bool :=
  if a.1 ≠ b.1 then dateLE a.1 b.1
  else if a.2.1 ≠ b.2.1 then decide (a.2.1 < b.2.1)
  else if a.2.2.1 ≠ b.2.2.1 then decide (a.2.2.1 < b.2.2.1)
  else decide (a.2.2.2 ≤ b.2.2.2)

/-- One aggregated national row: the four metric sums of the group, the
rates recomputed from those sums, and the single national geometry (the
union of all municipality shapes). -/
def mkNatRow (gdf_mun : List GdfMunRow) (k : DateV × Int × (Int × Int)) :
    NatRow :=
  let nationalShape := gdf_mun.filterMap (·.geometry)
  let grp := gdf_mun.filter fun r => decide (natKey r = some k)
  let t := sumVal (·.Total_reported) grp
  let dc := sumVal (·.Deceased) grp
  let h := sumVal (·.Hospital_admission) grp
  let p := sumVal (·.Population) grp
  { Date := k.1, Year := k.2.1, Month := k.2.2,
    Total_reported := t, Deceased := dc, Hospital_admission := h,
    Population := p,
    Incidence_rate_cases := rateOfSums t p,
    Incidence_rate_deaths := rateOfSums dc p,
    Incidence_rate_hospital := rateOfSums h p,
    geometry := nationalShape }

/-- create_national_geodata: aggregate the statistics by (Date, Year,
Month), recompute the rates from the sums, and attach the union of all
municipality geometries to every row. -/
def create_national_geodata (gdf_mun : List GdfMunRow) : List NatRow :=
  (groupKeys natKeyLE natKey gdf_mun).map (mkNatRow gdf_mun)

/-- Sum of the reported cases of the municipality-level rows on a date. -/
def munTotalOn (gdf_mun : List GdfMunRow) (d : DateV) : ℚ :=
  sumVal (·.Total_reported) (gdf_mun.filter fun r => decide (r.Date = some d))

/-- Sum of the reported cases over the province-level rows on a date. -/
def provTotalOn (gdf_mun : List GdfMunRow) (d : DateV) : ℚ :=
  (((create_province_geodata gdf_mun).filterMap (·.data)).filter
      (fun st => decide (st.Date = d))).map (·.Total_reported) |>.sum

/-- Sum of the reported cases over the national-level rows on a date
(one row per (date, year, month) key carrying that date). -/
def natTotalOn (gdf_mun : List GdfMunRow) (d : DateV) : ℚ :=
  ((create_national_geodata gdf_mun).filter
      (fun r => decide (r.Date = d))).map (·.Total_reported) |>.sum

/-!  Concrete tables used to instantiate the theorems. -/

/-- Population table of the concrete redistribution scenario: one Haaren
row of 4000 for 2020 and nothing else. -/
def popScenario : List PopInRow := [⟨"GM0788", "2020JJ00", some 4000⟩]

/-- Population table on which the unguarded redistribution claim fails:
the receiving code GM0824 holds two rows for the Haaren year. -/
def popDupIn : List PopInRow :=
  [⟨"GM0788", "2020JJ00", some 4000⟩,
   ⟨"GM0824", "2020JJ00", some 100⟩,
   ⟨"GM0824", "2020JJ00", some 200⟩]

/-- Population table with an obsolete code and the dissolved code. -/
def popObsolete : List PopInRow :=
  [⟨"GM0501", "2020JJ00", some 10⟩,
   ⟨"GM0788", "2020JJ00", some 4⟩,
   ⟨"GM0824", "2021JJ00", some 7⟩]

/-- The publication date of the concrete case scenarios. -/
def exDate : DateV := ⟨2021, 1, 1⟩

/-- Case table of the concrete three-way merge scenario. -/
def caseScenario : List CaseInRow :=
  [⟨some exDate, some ("GM0501"), some ("Brielle"), some ("Zuid-Holland"),
    some 10, some 0⟩,
   ⟨some exDate, some ("GM0530"), some ("Hellevoetsluis"), some ("Zuid-Holland"),
    some 5, some 0⟩,
   ⟨some exDate, some ("GM0614"), some ("Westvoorne"), some ("Zuid-Holland"),
    some 3, some 0⟩]

/-- Case table on which the unguarded merge-conservation claim fails: a
native row already carries the successor code on the same date. -/
def caseNative : List CaseInRow :=
  caseScenario ++
    [⟨some exDate, some ("GM1992"), some ("Voorne aan Zee"), some ("Zuid-Holland"),
      some 7, some 0⟩]

/-- Cleaned case row used by the join scenarios. -/
def exCaseOut : CaseOutRow :=
  { Date := exDate, Municipality_code := "GM0363",
    Municipality_name := "Amsterdam", Province := "Noord-Holland",
    Total_reported := 12, Deceased := 1, Year := 2021, Month := (2021, 1) }

/-- Cleaned hospital row matching `exCaseOut` on (date, code) but
carrying a different name cell. -/
def exHospOut : HospOutRow :=
  { Date := exDate, Municipality_code := "GM0363",
    Municipality_name := "Amsterdam (hosp)", Hospital_admission := 3,
    Year := 2021, Month := (2021, 1) }

/-- Cleaned case row with no hospital counterpart. -/
def exCaseLone : CaseOutRow :=
  { Date := exDate, Municipality_code := "GM0599",
    Municipality_name := "Rotterdam", Province := "Zuid-Holland",
    Total_reported := 9, Deceased := 0, Year := 2021, Month := (2021, 1) }

/-- Merged covid row used by the incidence scenarios. -/
def exCovid : CovidRow :=
  { Date := exDate, Municipality_code := "GM0363",
    Municipality_name := some ("Amsterdam"),
    Hospital_admission := some 3,
    Province := some ("Noord-Holland"),
    Total_reported := some 12, Deceased := some 1,
    Year := some 2021, Month := some (2021, 1) }

/-- Population record with a positive population for `exCovid`. -/
def exPopPos : PopOutRow :=
  { Municipality_code := "GM0363", Year := 2021, Population := 800000 }

/-- Population record with a zero population for `exCovid`: the rate
computation turns it into an infinity. -/
def exPopZero : PopOutRow :=
  { Municipality_code := "GM0363", Year := 2021, Population := 0 }

/-- Boundary row for the municipality of `exCovid`. -/
def exGeo : GeoRow :=
  { Municipality_code := "GM0363", Municipality_name := "Amsterdam",
    Province := "Noord-Holland", geometry := 1 }

/-- Case row with a valid date. -/
def caseGoodRow : CaseInRow :=
  ⟨some exDate, some ("GM0363"), some ("Amsterdam"), some ("Noord-Holland"),
   some 2, some 0⟩

/-- Case row whose date failed to parse. -/
def caseBadRow : CaseInRow :=
  ⟨none, some ("GM0363"), some ("Amsterdam"), some ("Noord-Holland"),
   some 50, some 7⟩

/-- Hospital row with a valid date. -/
def hospGoodRow : HospInRow :=
  ⟨some exDate, some ("GM0363"), some ("Amsterdam"), some 4⟩

/-- Hospital row whose date failed to parse. -/
def hospBadRow : HospInRow :=
  ⟨none, some ("GM0363"), some ("Amsterdam"), some 60⟩

/-- Final row of the concrete positive-population incidence scenario. -/
def exFinalPos : FinalRow := mkFinalRow exCovid (some 800000)

/-- Municipality geodata row of the concrete scenario. -/
def exMunGeo : MunGeoRow :=
  { Municipality_code := "GM0363", Province := "Noord-Holland",
    geometry := 1, data := some exFinalPos }

/-- Untyped row with every metric cell missing. -/
def exUntyped : TypedInRow :=
  { Year := 2021, Month := (2021, 1), Total_reported := none,
    Deceased := none, Hospital_admission := none, Population := none }

/-- Municipality-level geodata rows over two provinces on one date,
every cell present. -/
def gdfTwoProv : List GdfMunRow :=
  [{ Date := some exDate, Year := some 2021, Month := some (2021, 1),
     Province := some ("Noord-Holland"), Total_reported := some 12,
     Deceased := some 1, Hospital_admission := some 3,
     Population := some 800000, geometry := some 1 },
   { Date := some exDate, Year := some 2021, Month := some (2021, 1),
     Province := some ("Zuid-Holland"), Total_reported := some 9,
     Deceased := some 0, Hospital_admission := some 2,
     Population := some 650000, geometry := some 2 }]

/-- Municipality-level geodata row whose geometry is missing: its
province never reaches the dissolved shapes, so its count is absent from
the province level. -/
def gdfNoGeom : List GdfMunRow :=
  [{ Date := some exDate, Year := some 2021, Month := some (2021, 1),
     Province := some ("Noord-Holland"), Total_reported := some 5,
     Deceased := some 0, Hospital_admission := some 0,
     Population := some 1000, geometry := none }]

/-!  Derived quantities used to state the claims. -/

/-- Sum of the reported cases of the raw case rows carrying one of the
three legacy codes on a date. -/
def legacyCasesTotalOn (rows : List CaseInRow) (d : DateV) : ℚ :=
  sumVal (·.Total_reported) (rows.filter fun r =>
    decide (r.Date_of_publication = some d) &&
    optTest (fun c => decide (c ∈ old_codes)) r.Municipality_code)

/-- Sum of the reported cases of the cleaned case rows with a given code
on a date. -/
def caseTotalFor (out : List CaseOutRow) (code : String) (d : DateV) : ℚ :=
  ((out.filter fun r =>
      r.Municipality_code == code && decide (r.Date = d)).map
    (·.Total_reported)).sum

/-- Total population over a harmonized population table. -/
def popTotal (out : List PopOutRow) : ℚ := (out.map (·.Population)).sum

/-- The valid Haaren rows of a parsed population table for one year, in
the composition order produced by the two filters of the source. -/
def haarenValidAt (df : List PopRow) (y : Int) : List PopRow :=
  df.filter fun r =>
    r.Year == y && (r.Municipality_code == haaren_code && r.Population.isSome)

/-- The parsed population rows carrying a given (code, year). -/
def popRowsAt (df : List PopRow) (c : String) (y : Int) : List PopRow :=
  df.filter (matchKey c y)

/-- The harmonized population rows carrying a given (code, year). -/
def popOutAt (out : List PopOutRow) (c : String) (y : Int) : List PopOutRow :=
  out.filter fun r => r.Municipality_code == c && r.Year == y

/-- The population value redistributed for one Haaren year: the first
valid Haaren population of that year (0 in the vacuous case that cannot
arise for a processed year). -/
def haarenSplitValue (df : List PopRow) (y : Int) : ℚ :=
  ((((df.filter fun r =>
      r.Municipality_code == haaren_code && r.Population.isSome).filter
        fun r => r.Year == y).head?).bind (·.Population)).getD 0

/-- One year of the Haaren redistribution: a quarter of the year value
into each receiving code. -/
def haarenYearStep (df : List PopRow) (acc : List PopRow) (y : Int) :
    List PopRow :=
  receiving_codes.foldl
    (fun acc2 c => applySplitCode acc2 y (haarenSplitValue df y / 4) c) acc

/-- The harmonized population table of the concrete scenario: a quarter
of 4000 to each of the four receiving municipalities, in the sorted key
order of the final group-by. -/
def popScenarioOut : List PopOutRow :=
  [⟨"GM0757", 2020, 1000⟩, ⟨"GM0824", 2020, 1000⟩,
   ⟨"GM0855", 2020, 1000⟩, ⟨"GM0865", 2020, 1000⟩]

/-- The harmonized population table of `popObsolete`: the obsolete code
went to its successor, the dissolved code was split away. -/
def popObsoleteOut : List PopOutRow :=
  [⟨"GM0757", 2020, 1⟩, ⟨"GM0824", 2020, 1⟩, ⟨"GM0824", 2021, 7⟩,
   ⟨"GM0855", 2020, 1⟩, ⟨"GM0865", 2020, 1⟩, ⟨"GM1992", 2020, 10⟩]

/-- The parsed population table of `popScenario`. -/
def popScenarioMid : List PopRow := [⟨"GM0788", 2020, some 4000⟩]

/-- The parsed population table of `popDupIn`. -/
def popDupMid : List PopRow :=
  [⟨"GM0788", 2020, some 4000⟩, ⟨"GM0824", 2020, some 100⟩,
   ⟨"GM0824", 2020, some 200⟩]

/-- The harmonized population table of `popDupIn`: both duplicate GM0824
rows received the split, so the group carries 100 + 200 + 2 * 1000. -/
def popDupOut : List PopOutRow :=
  [⟨"GM0757", 2020, 1000⟩, ⟨"GM0824", 2020, 2300⟩,
   ⟨"GM0855", 2020, 1000⟩, ⟨"GM0865", 2020, 1000⟩]

/-!  Generic lemmas about the table operations. -/

theorem sumVal_congr {α : Type} (v w : α → Option ℚ) (rows : List α)
    (h : ∀ r ∈ rows, v r = w r) : sumVal v rows = sumVal w rows := by
  induction rows with
  | nil => rfl
  | cons r rs ih =>
      rw [sumVal_cons, sumVal_cons, h r (by simp), ih]
      intro x hx
      exact h x (by simp [hx])

/-- Summing a column over a filtered table is summing a guarded column. -/
theorem sumVal_filter_guard {α : Type} (v : α → Option ℚ) (q : α → Bool)
    (rows : List α) :
    sumVal v (rows.filter q)
      = sumVal (fun r => if q r then v r else none) rows := by
  induction rows with
  | nil => rfl
  | cons r rs ih =>
      cases hq : q r <;>
        simp [List.filter_cons, hq, sumVal_cons, ih]

/-- Summing a column over a filter of a filterMap image, pulled back. -/
theorem sumVal_filterMap_filter {α β : Type} (g : α → Option β)
    (q : β → Bool) (v : β → Option ℚ) (rows : List α) :
    sumVal v ((rows.filterMap g).filter q)
      = sumVal (fun r => (g r).bind fun m => if q m then v m else none) rows := by
  induction rows with
  | nil => rfl
  | cons r rs ih =>
      cases hg : g r with
      | none => simp [List.filterMap_cons, hg, sumVal_cons, ih]
      | some m =>
          cases hq : q m <;>
            simp [List.filterMap_cons, hg, List.filter_cons, hq, sumVal_cons, ih]

/-- Bridge from a filtered group-by output to the underlying rows: the
group sums over the keys satisfying a predicate add up to the column sum
over the rows whose (non-null) key satisfies it. -/
theorem grouped_sum_filter {α κ : Type} [DecidableEq κ]
    (le : κ → κ → Bool) (key : α → Option κ) (v : α → Option ℚ)
    (rows : List α) (p : κ → Bool) :
    (((groupKeys le key rows).filter p).map fun k =>
        sumVal v (rows.filter fun r => decide (key r = some k))).sum
      = sumVal v (rows.filter fun r => optTest p (key r)) := by
  have hperm : ((groupKeys le key rows).filter p).Perm
      (((rows.filterMap key).dedup).filter p) :=
    List.Perm.filter p (List.perm_insertionSort _ _)
  rw [List.Perm.sum_eq (List.Perm.map _ hperm)]
  rw [sum_over_groups key v rows _ (List.Nodup.filter p (List.nodup_dedup _))]
  apply congrArg
  apply List.filter_congr
  intro r hr
  cases hk : key r with
  | none => simp [optTest]
  | some k =>
      simp only [optTest]
      have : k ∈ (rows.filterMap key).dedup ↔ True := by
        simp [List.mem_dedup]
        exact ⟨r, hr, hk⟩
      by_cases hp : p k = true <;> simp [List.mem_filter, hp, this.mpr trivial]

/-- A total-key group-by: summing all group sums gives the column sum. -/
theorem grouped_sum_total {α κ : Type} [DecidableEq κ]
    (le : κ → κ → Bool) (key : α → Option κ) (v : α → Option ℚ)
    (rows : List α) (htot : ∀ r ∈ rows, (key r).isSome) :
    ((groupKeys le key rows).map fun k =>
        sumVal v (rows.filter fun r => decide (key r = some k))).sum
      = sumVal v rows := by
  have h := grouped_sum_filter le key v rows (fun _ => true)
  simp only [List.filter_true] at h
  rw [h]
  apply congrArg
  conv_rhs => rw [← List.filter_true rows]
  apply List.filter_congr
  intro r hr
  cases hk : key r with
  | none => exact absurd (hk ▸ htot r hr) (by simp)
  | some k => simp [optTest]

theorem mem_uniqueFirstAux {β : Type} [DecidableEq β] (x : β) :
    ∀ (l seen : List β), x ∈ uniqueFirstAux l seen ↔ x ∈ l ∧ x ∉ seen := by
  intro l
  induction l with
  | nil => intro seen; simp [uniqueFirstAux]
  | cons a as ih =>
      intro seen
      by_cases ha : a ∈ seen
      · simp only [uniqueFirstAux, if_pos ha, ih]
        constructor
        · rintro ⟨h1, h2⟩; exact ⟨by simp [h1], h2⟩
        · rintro ⟨h1, h2⟩
          rcases List.mem_cons.mp h1 with rfl | h1
          · exact absurd ha h2
          · exact ⟨h1, h2⟩
      · simp only [uniqueFirstAux, if_neg ha]
        constructor
        · intro h
          rcases List.mem_cons.mp h with rfl | h
          · exact ⟨by simp, ha⟩
          · have := (ih (a :: seen)).mp h
            exact ⟨by simp [this.1], fun hx => this.2 (by simp [hx])⟩
        · rintro ⟨h1, h2⟩
          rcases List.mem_cons.mp h1 with rfl | h1
          · exact List.mem_cons_self _ _
          · by_cases hxa : x = a
            · exact hxa ▸ List.mem_cons_self _ _
            · exact List.mem_cons.mpr (Or.inr ((ih (a :: seen)).mpr
                ⟨h1, by simp [hxa, h2]⟩))

theorem nodup_uniqueFirstAux {β : Type} [DecidableEq β] :
    ∀ (l seen : List β), (uniqueFirstAux l seen).Nodup := by
  intro l
  induction l with
  | nil => intro seen; simp [uniqueFirstAux]
  | cons a as ih =>
      intro seen
      by_cases ha : a ∈ seen
      · simpa [uniqueFirstAux, if_pos ha] using ih seen
      · simp only [uniqueFirstAux, if_neg ha]
        refine List.nodup_cons.mpr ⟨fun hmem => ?_, ih (a :: seen)⟩
        exact ((mem_uniqueFirstAux a as (a :: seen)).mp hmem).2 (by simp)

theorem mem_uniqueFirst {β : Type} [DecidableEq β] (x : β) (l : List β) :
    x ∈ uniqueFirst l ↔ x ∈ l := by
  simp [uniqueFirst, mem_uniqueFirstAux]

theorem nodup_uniqueFirst {β : Type} [DecidableEq β] (l : List β) :
    (uniqueFirst l).Nodup :=
  nodup_uniqueFirstAux l []

/-- Filtering a mapped table equals filtering the original when the map
preserves the test and fixes the rows passing it. -/
theorem filter_map_eq_filter {α : Type} (f : α → α) (p : α → Bool)
    (h1 : ∀ r, p (f r) = p r) (h2 : ∀ r, p r = true → f r = r) :
    ∀ l : List α, (l.map f).filter p = l.filter p := by
  intro l
  induction l with
  | nil => rfl
  | cons r rs ih =>
      cases hp : p r with
      | true => simp [List.filter_cons, h1 r, hp, h2 r hp, ih]
      | false => simp [List.filter_cons, h1 r, hp, ih]

/-- In a duplicate-free list, filtering for equality with a member gives
exactly that member. -/
theorem nodup_filter_eq_singleton {κ : Type} [DecidableEq κ]
    {l : List κ} (hnd : l.Nodup) {a : κ} (ha : a ∈ l) :
    l.filter (fun k => decide (k = a)) = [a] := by
  induction l with
  | nil => cases ha
  | cons x xs ih =>
      by_cases hxa : x = a
      · subst hxa
        have hnx : x ∉ xs := (List.nodup_cons.mp hnd).1
        have hnil : xs.filter (fun k => decide (k = x)) = [] := by
          rw [List.filter_eq_nil_iff]
          intro b hb
          simp only [decide_eq_true_eq]
          exact fun hbx => hnx (hbx ▸ hb)
        simp [List.filter_cons, hnil]
      · have ha2 : a ∈ xs := by
          rcases List.mem_cons.mp ha with h | h
          · exact absurd h.symm hxa
          · exact h
        simp [List.filter_cons, hxa, ih (List.nodup_cons.mp hnd).2 ha2]

/-- Sum of a mapped flatMap, expanded group by group. -/
theorem sum_map_flatMap {α β : Type} (g : α → List β) (f : β → ℚ)
    (l : List α) :
    (((l.flatMap g).map f).sum)
      = (l.map fun a => ((g a).map f).sum).sum := by
  induction l with
  | nil => rfl
  | cons a as ih => simp [List.flatMap_cons, ih]

/-!  Facts about the case/hospital join. -/

/-- Every surviving row of the join is built from one hospital row and
one case row sharing the merge key. -/
theorem combine_mem_decomp (cs : List CaseOutRow) (hs : List HospOutRow)
    (r : CovidRow) (hr : r ∈ combine_cases_and_hospital_data cs hs) :
    ∃ h ∈ hs, ∃ c ∈ cs,
      h.Date = c.Date ∧ h.Municipality_code = c.Municipality_code ∧
      r = mergeBoth h c := by
  simp only [combine_cases_and_hospital_data] at hr
  have hall : covidAllSome r = true := (List.mem_filter.mp hr).2
  have hm : r ∈ (sortKeys covidKeyLE
      ((hs.map (fun h => (h.Date, h.Municipality_code)) ++
        cs.map (fun c => (c.Date, c.Municipality_code))).dedup)).flatMap _ :=
    (List.mem_filter.mp hr).1
  obtain ⟨k, _, hbody⟩ := List.mem_flatMap.mp hm
  rcases hhm : hs.filter (fun h => decide ((h.Date, h.Municipality_code) = k))
    with _ | ⟨h0, ht⟩
  · rw [hhm] at hbody
    simp only [] at hbody
    obtain ⟨c, _, rfl⟩ := List.mem_map.mp hbody
    simp [covidAllSome, mergeRight] at hall
  · rcases hcm : cs.filter (fun c => decide ((c.Date, c.Municipality_code) = k))
      with _ | ⟨c0, ct⟩
    · rw [hhm, hcm] at hbody
      simp only [] at hbody
      obtain ⟨h, _, rfl⟩ := List.mem_map.mp hbody
      simp [covidAllSome, mergeLeft] at hall
    · rw [hhm, hcm] at hbody
      simp only [] at hbody
      obtain ⟨h, hh, hmap⟩ := List.mem_flatMap.mp hbody
      obtain ⟨c, hc, rfl⟩ := List.mem_map.mp hmap
      have hh2 : h ∈ hs.filter (fun h => decide ((h.Date, h.Municipality_code) = k)) := by
        rw [hhm]; exact hh
      have hc2 : c ∈ cs.filter (fun c => decide ((c.Date, c.Municipality_code) = k)) := by
        rw [hcm]; exact hc
      have hhk := (List.mem_filter.mp hh2).2
      have hck := (List.mem_filter.mp hc2).2
      simp only [decide_eq_true_eq] at hhk hck
      refine ⟨h, (List.mem_filter.mp hh2).1, c, (List.mem_filter.mp hc2).1, ?_, ?_, rfl⟩
      · rw [show h.Date = k.1 from congrArg Prod.fst hhk,
           show c.Date = k.1 from congrArg Prod.fst hck]
      · rw [show h.Municipality_code = k.2 from congrArg Prod.snd hhk,
           show c.Municipality_code = k.2 from congrArg Prod.snd hck]

/-- Claim C3: every row of the combined covid table has non-null values
in every field, and its (date, code) key is present in both the cleaned
case table and the cleaned hospital table: no output row originates from
only one source, despite the outer-join mechanism. -/
theorem C3_join_intersection (cs : List CaseOutRow) (hs : List HospOutRow)
    (r : CovidRow) (hr : r ∈ combine_cases_and_hospital_data cs hs) :
    (r.Municipality_name.isSome ∧ r.Hospital_admission.isSome ∧
     r.Province.isSome ∧ r.Total_reported.isSome ∧ r.Deceased.isSome ∧
     r.Year.isSome ∧ r.Month.isSome) ∧
    (∃ c ∈ cs, c.Date = r.Date ∧ c.Municipality_code = r.Municipality_code) ∧
    (∃ h ∈ hs, h.Date = r.Date ∧ h.Municipality_code = r.Municipality_code) := by
  obtain ⟨h, hh, c, hc, hd, hcode, rfl⟩ := combine_mem_decomp cs hs r hr
  refine ⟨by simp [mergeBoth], ⟨c, hc, ?_, ?_⟩, ⟨h, hh, rfl, rfl⟩⟩
  · exact hd.symm
  · exact hcode.symm

/-- Witness: the join of a matched case/hospital pair together with an
unmatched case row keeps exactly the matched pair, with every field
present and both provenances. -/
theorem C3_join_intersection_witness :
    mergeBoth exHospOut exCaseOut ∈
      combine_cases_and_hospital_data [exCaseOut, exCaseLone] [exHospOut] ∧
    ((mergeBoth exHospOut exCaseOut).Municipality_name.isSome ∧
     (mergeBoth exHospOut exCaseOut).Hospital_admission.isSome ∧
     (mergeBoth exHospOut exCaseOut).Province.isSome ∧
     (mergeBoth exHospOut exCaseOut).Total_reported.isSome ∧
     (mergeBoth exHospOut exCaseOut).Deceased.isSome ∧
     (mergeBoth exHospOut exCaseOut).Year.isSome ∧
     (mergeBoth exHospOut exCaseOut).Month.isSome) ∧
    (∃ c ∈ [exCaseOut, exCaseLone], c.Date = (mergeBoth exHospOut exCaseOut).Date ∧
      c.Municipality_code = (mergeBoth exHospOut exCaseOut).Municipality_code) ∧
    (∃ h ∈ [exHospOut], h.Date = (mergeBoth exHospOut exCaseOut).Date ∧
      h.Municipality_code = (mergeBoth exHospOut exCaseOut).Municipality_code) := by
  have hmem : mergeBoth exHospOut exCaseOut ∈
      combine_cases_and_hospital_data [exCaseOut, exCaseLone] [exHospOut] := by
    decide
  exact ⟨hmem, C3_join_intersection [exCaseOut, exCaseLone] [exHospOut] _ hmem⟩

/-- Claim C8 as stated is false: the municipality name of a joined row is
carried from the hospital side, not from the case side.  On a matched
pair whose sides carry different names the output holds the hospital
name. -/
theorem C8_counterexample :
    (combine_cases_and_hospital_data [exCaseOut] [exHospOut]).map
        (·.Municipality_name) = [some (exHospOut.Municipality_name)] ∧
    exHospOut.Municipality_name ≠ exCaseOut.Municipality_name := by
  constructor
  · decide
  · decide

/-- Claim C8, amended: in the join output, the municipality name and the
admission count of every row are carried from the hospital-side row of
its key, while province, the two case metrics, Year and Month are
carried from the case-side row of its key. -/
theorem C8_join_provenance_amended (cs : List CaseOutRow)
    (hs : List HospOutRow) (r : CovidRow)
    (hr : r ∈ combine_cases_and_hospital_data cs hs) :
    ∃ h ∈ hs, ∃ c ∈ cs,
      h.Date = r.Date ∧ h.Municipality_code = r.Municipality_code ∧
      c.Date = r.Date ∧ c.Municipality_code = r.Municipality_code ∧
      r.Municipality_name = some h.Municipality_name ∧
      r.Hospital_admission = some h.Hospital_admission ∧
      r.Province = some c.Province ∧
      r.Total_reported = some c.Total_reported ∧
      r.Deceased = some c.Deceased ∧
      r.Year = some c.Year ∧
      r.Month = some c.Month := by
  obtain ⟨h, hh, c, hc, hd, hcode, rfl⟩ := combine_mem_decomp cs hs r hr
  exact ⟨h, hh, c, hc, rfl, rfl, hd.symm, hcode.symm,
    rfl, rfl, rfl, rfl, rfl, rfl, rfl⟩

/-- Witness: on the matched pair with differing name cells, the amended
provenance holds with the hospital name in the output. -/
theorem C8_join_provenance_amended_witness :
    mergeBoth exHospOut exCaseOut ∈
      combine_cases_and_hospital_data [exCaseOut] [exHospOut] ∧
    ∃ h ∈ [exHospOut], ∃ c ∈ [exCaseOut],
      h.Date = (mergeBoth exHospOut exCaseOut).Date ∧
      h.Municipality_code = (mergeBoth exHospOut exCaseOut).Municipality_code ∧
      c.Date = (mergeBoth exHospOut exCaseOut).Date ∧
      c.Municipality_code = (mergeBoth exHospOut exCaseOut).Municipality_code ∧
      (mergeBoth exHospOut exCaseOut).Municipality_name = some h.Municipality_name ∧
      (mergeBoth exHospOut exCaseOut).Hospital_admission = some h.Hospital_admission ∧
      (mergeBoth exHospOut exCaseOut).Province = some c.Province ∧
      (mergeBoth exHospOut exCaseOut).Total_reported = some c.Total_reported ∧
      (mergeBoth exHospOut exCaseOut).Deceased = some c.Deceased ∧
      (mergeBoth exHospOut exCaseOut).Year = some c.Year ∧
      (mergeBoth exHospOut exCaseOut).Month = some c.Month := by
  have hmem : mergeBoth exHospOut exCaseOut ∈
      combine_cases_and_hospital_data [exCaseOut] [exHospOut] := by
    decide
  exact ⟨hmem, C8_join_provenance_amended [exCaseOut] [exHospOut] _ hmem⟩

/-!  Facts about the incidence-rate computation. -/

/-- Every output row of the population join is a merged covid row paired
with an optional population value. -/
theorem add_pop_mem_decomp (covid : List CovidRow) (pops : List PopOutRow)
    (r : FinalRow)
    (hr : r ∈ add_population_and_calculate_incidence covid pops) :
    ∃ c ∈ covid, ∃ po : Option ℚ, r = mkFinalRow c po := by
  simp only [add_population_and_calculate_incidence] at hr
  obtain ⟨c, hc, hbody⟩ := List.mem_flatMap.mp hr
  rcases hms : pops.filter (fun p =>
      p.Municipality_code == c.Municipality_code && decide (some p.Year = c.Year))
    with _ | ⟨p0, pt⟩
  · rw [hms] at hbody
    simp only [List.mem_singleton] at hbody
    exact ⟨c, hc, none, hbody⟩
  · rw [hms] at hbody
    simp only [] at hbody
    obtain ⟨p, _, rfl⟩ := List.mem_map.mp hbody
    exact ⟨c, hc, some p.Population, rfl⟩

theorem combRate_pos_pop (m p : ℚ) (hp : 0 < p) :
    combRate (some m) (some p) = .fin (m / p * 100000) := by
  simp [combRate, toF, fdiv, fmul, ne_of_gt hp]

theorem combRate_none_pop (m : Option ℚ) : combRate m none = .nan := by
  cases m <;> rfl

theorem combRate_zero_zero : combRate (some 0) (some 0) = .nan := by
  simp [combRate, toF, fdiv, fmul]

theorem combRate_zero_pos (m : ℚ) (hm : 0 < m) :
    combRate (some m) (some 0) = .inf := by
  have hm0 : ¬(m = 0) := ne_of_gt hm
  have : (100000 : ℚ) ≠ 0 := by norm_num
  simp [combRate, toF, fdiv, fmul, hm0, hm, this]

/-- At a missing or zero population, no computed rate is a finite value:
in particular it is never a silent zero. -/
theorem combRate_not_fin (m : Option ℚ) (po : Option ℚ)
    (hpo : po = none ∨ po = some 0) : ∀ q : ℚ, combRate m po ≠ .fin q := by
  intro q
  rcases hpo with rfl | rfl
  · rw [combRate_none_pop]; simp
  · cases m with
    | none =>
        have h1 : combRate none (some 0) = .nan := rfl
        rw [h1]; simp
    | some a =>
        rcases lt_trichotomy a 0 with ha | ha | ha
        · have h1 : combRate (some a) (some 0) = .neginf := by
            norm_num [combRate, toF, fdiv, fmul, ne_of_lt ha, asymm ha]
          rw [h1]; simp
        · subst ha
          rw [combRate_zero_zero]; simp
        · rw [combRate_zero_pos a ha]; simp

/-- Claim C4, amended: on every output row, a present positive population
gives the exact rate metric / population * 100000 for each of the three
metrics; a missing population gives NaN rates; a zero population gives
NaN at a zero metric and positive infinity at a positive metric; and at a
missing or zero population no rate is ever a finite value (in particular
never a silent zero) - but a zero population with a positive metric
yields an infinity, not a missing value. -/
theorem C4_rate_correctness_amended (covid : List CovidRow)
    (pops : List PopOutRow) (r : FinalRow)
    (hr : r ∈ add_population_and_calculate_incidence covid pops) :
    (∀ p : ℚ, r.Population = some p → 0 < p →
       (∀ t, r.Total_reported = some t →
          r.Incidence_rate_cases = .fin (t / p * 100000)) ∧
       (∀ t, r.Deceased = some t →
          r.Incidence_rate_deaths = .fin (t / p * 100000)) ∧
       (∀ t, r.Hospital_admission = some t →
          r.Incidence_rate_hospital_admission = .fin (t / p * 100000))) ∧
    (r.Population = none →
       r.Incidence_rate_cases = .nan ∧ r.Incidence_rate_deaths = .nan ∧
       r.Incidence_rate_hospital_admission = .nan) ∧
    (r.Population = some 0 →
       (r.Total_reported = some 0 → r.Incidence_rate_cases = .nan) ∧
       (∀ t, r.Total_reported = some t → 0 < t →
          r.Incidence_rate_cases = .inf)) ∧
    ((r.Population = none ∨ r.Population = some 0) →
       (∀ q, r.Incidence_rate_cases ≠ .fin q) ∧
       (∀ q, r.Incidence_rate_deaths ≠ .fin q) ∧
       (∀ q, r.Incidence_rate_hospital_admission ≠ .fin q)) := by
  obtain ⟨c, _, po, rfl⟩ := add_pop_mem_decomp covid pops r hr
  simp only [mkFinalRow]
  refine ⟨?_, ?_, ?_, ?_⟩
  · rintro p rfl hp
    refine ⟨?_, ?_, ?_⟩ <;> · rintro t ht; rw [ht, combRate_pos_pop t p hp]
  · rintro rfl
    exact ⟨combRate_none_pop _, combRate_none_pop _, combRate_none_pop _⟩
  · rintro rfl
    constructor
    · intro ht; rw [ht, combRate_zero_zero]
    · intro t ht htpos; rw [ht, combRate_zero_pos t htpos]
  · intro hpo
    exact ⟨combRate_not_fin _ po hpo, combRate_not_fin _ po hpo,
      combRate_not_fin _ po hpo⟩

/-- Claim C4 as stated is false: at a zero population with a positive
case count the computed rate is positive infinity, which is neither a
missing value nor finite. -/
theorem C4_counterexample :
    (add_population_and_calculate_incidence [exCovid] [exPopZero]).map
        (·.Incidence_rate_cases) = [.inf] ∧
    FVal.inf ≠ FVal.nan := by
  constructor
  · decide
  · decide

/-- Witness: on a row with population 800000 and 12 reported cases the
case rate is exactly 12 / 800000 * 100000, and on a missing population
the rates are NaN. -/
theorem C4_rate_correctness_amended_witness :
    mkFinalRow exCovid (some 800000) ∈
      add_population_and_calculate_incidence [exCovid] [exPopPos] ∧
    (mkFinalRow exCovid (some 800000)).Incidence_rate_cases
      = .fin (12 / 800000 * 100000) := by
  have hmem : mkFinalRow exCovid (some 800000) ∈
      add_population_and_calculate_incidence [exCovid] [exPopPos] := by
    rw [show add_population_and_calculate_incidence [exCovid] [exPopPos]
        = [mkFinalRow exCovid (some 800000)] from rfl]
    simp
  have h := C4_rate_correctness_amended [exCovid] [exPopPos] _ hmem
  exact ⟨hmem, (h.1 800000 rfl (by norm_num)).1 12 rfl⟩

/-!  Facts about the municipality geodata. -/

theorem geoRate_eq_combRate (m po : Option ℚ) : geoRate m po = combRate m po := rfl

/-- The rate overwrite of create_municipality_geodata is the identity on
rows produced by add_population_and_calculate_incidence. -/
theorem recomputeRates_mkFinalRow (c : CovidRow) (po : Option ℚ) :
    recomputeRates (mkFinalRow c po) = mkFinalRow c po := by
  simp [recomputeRates, mkFinalRow, geoRate_eq_combRate]

/-- Claim C7: every data payload carried by the municipality geodata
built from the final joined dataset is a row of that dataset, and its
three incidence-rate cells equal the combiner formula applied to its own
metric and population cells: the recomputation changes nothing, row for
row. -/
theorem C7_rate_recomputation_consistency (covid : List CovidRow)
    (pops : List PopOutRow) (geo : List GeoRow) (g : MunGeoRow)
    (hg : g ∈ create_municipality_geodata
        (add_population_and_calculate_incidence covid pops) geo)
    (f : FinalRow) (hf : g.data = some f) :
    f ∈ add_population_and_calculate_incidence covid pops ∧
    f.Incidence_rate_cases = combRate f.Total_reported f.Population ∧
    f.Incidence_rate_deaths = combRate f.Deceased f.Population ∧
    f.Incidence_rate_hospital_admission
      = combRate f.Hospital_admission f.Population := by
  simp only [create_municipality_geodata] at hg
  obtain ⟨grow, _, hbody⟩ := List.mem_flatMap.mp hg
  rcases hms : (((add_population_and_calculate_incidence covid pops).map
      recomputeRates).filter
      (fun f2 => f2.Municipality_code == grow.Municipality_code))
    with _ | ⟨f0, ft⟩
  · rw [hms] at hbody
    simp only [List.mem_singleton] at hbody
    rw [hbody] at hf
    cases hf
  · rw [hms] at hbody
    obtain ⟨f1, hf1, heq⟩ := List.mem_map.mp hbody
    have hdata : some f1 = g.data := congrArg MunGeoRow.data heq
    rw [hf] at hdata
    have hff : f1 = f := Option.some.inj hdata
    subst hff
    have hf1b : f1 ∈ (((add_population_and_calculate_incidence covid pops).map
        recomputeRates).filter
        (fun f2 => f2.Municipality_code == grow.Municipality_code)) := by
      rw [hms]; exact hf1
    have hf1c : f1 ∈ (add_population_and_calculate_incidence covid pops).map
        recomputeRates := (List.mem_filter.mp hf1b).1
    obtain ⟨f2, hf2, hmapeq⟩ := List.mem_map.mp hf1c
    obtain ⟨c, _, po, rfl⟩ := add_pop_mem_decomp covid pops f2 hf2
    rw [recomputeRates_mkFinalRow] at hmapeq
    rw [← hmapeq]
    exact ⟨hf2, rfl, rfl, rfl⟩

/-- Witness: the geodata built from the concrete one-row final dataset
carries that row unchanged, with rates matching the combiner formula. -/
theorem C7_rate_recomputation_consistency_witness :
    exMunGeo ∈ create_municipality_geodata
        (add_population_and_calculate_incidence [exCovid] [exPopPos]) [exGeo] ∧
    (exFinalPos ∈ add_population_and_calculate_incidence [exCovid] [exPopPos] ∧
     exFinalPos.Incidence_rate_cases
       = combRate exFinalPos.Total_reported exFinalPos.Population ∧
     exFinalPos.Incidence_rate_deaths
       = combRate exFinalPos.Deceased exFinalPos.Population ∧
     exFinalPos.Incidence_rate_hospital_admission
       = combRate exFinalPos.Hospital_admission exFinalPos.Population) := by
  have hmem : exMunGeo ∈ create_municipality_geodata
      (add_population_and_calculate_incidence [exCovid] [exPopPos]) [exGeo] := by
    rw [show create_municipality_geodata
        (add_population_and_calculate_incidence [exCovid] [exPopPos]) [exGeo]
        = [exMunGeo] from rfl]
    simp
  exact ⟨hmem, C7_rate_recomputation_consistency [exCovid] [exPopPos] [exGeo]
    _ hmem _ rfl⟩

/-!  Facts about the column typing. -/

/-- Claim C10: cast_column_types maps each row to one with every metric
cell filled (0 at a missing cell) and cast to an integer; in particular
a missing population becomes a literal zero. -/
theorem C10_cast_fills_missing_with_zero (rows : List TypedInRow)
    (r : TypedInRow) (h : r ∈ rows) :
    ∃ c ∈ cast_column_types rows,
      (r.Population = none → c.Population = 0) ∧
      (r.Total_reported = none → c.Total_reported = 0) ∧
      (r.Deceased = none → c.Deceased = 0) ∧
      (r.Hospital_admission = none → c.Hospital_admission = 0) ∧
      c.Year = r.Year ∧ c.Month = r.Month ∧
      c.Total_reported = castNum r.Total_reported ∧
      c.Deceased = castNum r.Deceased ∧
      c.Hospital_admission = castNum r.Hospital_admission ∧
      c.Population = castNum r.Population := by
  refine ⟨_, List.mem_map_of_mem _ h, ?_, ?_, ?_, ?_, rfl, rfl, rfl, rfl, rfl, rfl⟩
  all_goals
    intro hnone
    simp [castNum, hnone, ratTrunc]

/-- Witness: a row with every metric missing becomes the all-zero typed
row. -/
theorem C10_cast_fills_missing_with_zero_witness :
    ∃ c ∈ cast_column_types [exUntyped],
      c.Population = 0 ∧ c.Total_reported = 0 ∧ c.Deceased = 0 ∧
      c.Hospital_admission = 0 := by
  obtain ⟨c, hc, h1, h2, h3, h4, _⟩ :=
    C10_cast_fills_missing_with_zero [exUntyped] exUntyped (by simp)
  exact ⟨c, hc, h1 rfl, h2 rfl, h3 rfl, h4 rfl⟩

/-!  Null-date rows and the cleaner group-bys. -/

theorem groupKeys_insert_null {α κ : Type} [DecidableEq κ]
    (le : κ → κ → Bool) (key : α → Option κ) (A B : List α) (x : α)
    (hx : key x = none) :
    groupKeys le key (A ++ x :: B) = groupKeys le key (A ++ B) := by
  unfold groupKeys
  rw [List.filterMap_append, List.filterMap_append, List.filterMap_cons, hx]

theorem filter_key_insert_null {α κ : Type} [DecidableEq κ]
    (key : α → Option κ) (A B : List α) (x : α) (hx : key x = none) (k : κ) :
    (A ++ x :: B).filter (fun r => decide (key r = some k))
      = (A ++ B).filter (fun r => decide (key r = some k)) := by
  rw [List.filter_append, List.filter_append, List.filter_cons]
  simp [hx]

theorem mem_sortKeys {κ : Type} (le : κ → κ → Bool) (l : List κ) (k : κ) :
    k ∈ sortKeys le l ↔ k ∈ l :=
  (List.perm_insertionSort _ l).mem_iff

theorem caseKey_date {m : CaseMidRow} {k : DateV × String × String × String}
    (h : caseKey m = some k) : m.Date = some k.1 := by
  unfold caseKey at h
  cases hd : m.Date with
  | none => rw [hd] at h; cases h
  | some d =>
      cases hp : m.Province with
      | none => rw [hd, hp] at h; cases h
      | some p =>
          rw [hd, hp] at h
          simp only [Option.bind_eq_bind, Option.some_bind, Option.pure_def] at h
          cases h
          rfl

theorem hospKey_date {m : HospMidRow} {k : DateV × String × String}
    (h : hospKey m = some k) : m.Date = some k.1 := by
  unfold hospKey at h
  cases hd : m.Date with
  | none => rw [hd] at h; cases h
  | some d =>
      rw [hd] at h
      simp only [Option.bind_eq_bind, Option.some_bind, Option.pure_def] at h
      cases h
      rfl


theorem caseKey_none_of_date {m : CaseMidRow} (h : m.Date = none) :
    caseKey m = none := by
  unfold caseKey
  rw [h]
  rfl

theorem hospKey_none_of_date {m : HospMidRow} (h : m.Date = none) :
    hospKey m = none := by
  unfold hospKey
  rw [h]
  rfl

theorem caseMid_append (a b : List CaseInRow) :
    caseMid (a ++ b) = caseMid a ++ caseMid b := by
  unfold caseMid
  exact List.filterMap_append a b _

theorem hospMid_append (a b : List HospInRow) :
    hospMid (a ++ b) = hospMid a ++ hospMid b := by
  unfold hospMid
  exact List.filterMap_append a b _

/-- Dropping a null-key row from a keyed aggregation of the case mid
table changes nothing. -/
theorem clean_cases_group_insert (A B : List CaseMidRow) (x : CaseMidRow)
    (hx : caseKey x = none) :
    ((groupKeys caseKeyLE caseKey (A ++ x :: B)).map fun k =>
      ({ Date := k.1, Municipality_code := k.2.1,
         Municipality_name := k.2.2.1, Province := k.2.2.2,
         Total_reported := sumVal (·.Total_reported)
           ((A ++ x :: B).filter fun r => decide (caseKey r = some k)),
         Deceased := sumVal (·.Deceased)
           ((A ++ x :: B).filter fun r => decide (caseKey r = some k)),
         Year := k.1.y, Month := (k.1.y, k.1.m) } : CaseOutRow))
    = ((groupKeys caseKeyLE caseKey (A ++ B)).map fun k =>
      ({ Date := k.1, Municipality_code := k.2.1,
         Municipality_name := k.2.2.1, Province := k.2.2.2,
         Total_reported := sumVal (·.Total_reported)
           ((A ++ B).filter fun r => decide (caseKey r = some k)),
         Deceased := sumVal (·.Deceased)
           ((A ++ B).filter fun r => decide (caseKey r = some k)),
         Year := k.1.y, Month := (k.1.y, k.1.m) } : CaseOutRow)) := by
  rw [groupKeys_insert_null caseKeyLE caseKey A B x hx]
  apply List.map_congr_left
  intro k _
  rw [filter_key_insert_null caseKey A B x hx k]

/-- Dropping a null-key row from a keyed aggregation of the hospital mid
table changes nothing. -/
theorem clean_hosp_group_insert (A B : List HospMidRow) (x : HospMidRow)
    (hx : hospKey x = none) :
    ((groupKeys hospKeyLE hospKey (A ++ x :: B)).map fun k =>
      ({ Date := k.1, Municipality_code := k.2.1,
         Municipality_name := k.2.2,
         Hospital_admission := sumVal (·.Hospital_admission)
           ((A ++ x :: B).filter fun r => decide (hospKey r = some k)),
         Year := k.1.y, Month := (k.1.y, k.1.m) } : HospOutRow))
    = ((groupKeys hospKeyLE hospKey (A ++ B)).map fun k =>
      ({ Date := k.1, Municipality_code := k.2.1,
         Municipality_name := k.2.2,
         Hospital_admission := sumVal (·.Hospital_admission)
           ((A ++ B).filter fun r => decide (hospKey r = some k)),
         Year := k.1.y, Month := (k.1.y, k.1.m) } : HospOutRow)) := by
  rw [groupKeys_insert_null hospKeyLE hospKey A B x hx]
  apply List.map_congr_left
  intro k _
  rw [filter_key_insert_null hospKey A B x hx k]

/-- Claim C9: the cleaner outputs never carry a null date.  Inserting a
row whose date failed to parse changes the output of clean_cases_df and
of clean_hospital_df in no way (the group-by on Date silently drops the
null key), and every output date stems from an input row whose date cell
was present. -/
theorem C9_null_dates_dropped :
    (∀ (l₁ l₂ : List CaseInRow) (r : CaseInRow),
       r.Date_of_publication = none →
       clean_cases_df (l₁ ++ r :: l₂) = clean_cases_df (l₁ ++ l₂)) ∧
    (∀ (l₁ l₂ : List HospInRow) (r : HospInRow),
       r.Date_of_statistics = none →
       clean_hospital_df (l₁ ++ r :: l₂) = clean_hospital_df (l₁ ++ l₂)) ∧
    (∀ (rows : List CaseInRow) (out : CaseOutRow),
       out ∈ clean_cases_df rows →
       ∃ rin ∈ rows, rin.Date_of_publication = some out.Date) ∧
    (∀ (rows : List HospInRow) (out : HospOutRow),
       out ∈ clean_hospital_df rows →
       ∃ rin ∈ rows, rin.Date_of_statistics = some out.Date) := by
  refine ⟨?_, ?_, ?_, ?_⟩
  · intro l₁ l₂ r hr
    have hsplit : caseMid (l₁ ++ r :: l₂)
        = caseMid l₁ ++ caseMid [r] ++ caseMid l₂ := by
      rw [show l₁ ++ r :: l₂ = l₁ ++ [r] ++ l₂ by simp]
      rw [caseMid_append, caseMid_append]
    rcases hmr : caseMid [r] with _ | ⟨x, xt⟩
    · have hmid : caseMid (l₁ ++ r :: l₂) = caseMid (l₁ ++ l₂) := by
        rw [hsplit, hmr, caseMid_append]
        simp
      simp only [clean_cases_df]
      rw [hmid]
    · have hxt : xt = [] := by
        have hlen : (caseMid [r]).length ≤ 1 := by
          unfold caseMid
          cases hc : r.Municipality_code <;> cases hn : r.Municipality_name <;>
            simp [List.filterMap_cons, hc, hn]
        rw [hmr] at hlen
        simp only [List.length_cons] at hlen
        exact List.length_eq_zero.mp (by omega)
      subst hxt
      have hxdate : x.Date = none := by
        unfold caseMid at hmr
        simp only [List.filterMap_cons, List.filterMap_nil] at hmr
        cases hc : r.Municipality_code with
        | none => rw [hc] at hmr; simp at hmr
        | some c =>
            cases hn : r.Municipality_name with
            | none => rw [hc, hn] at hmr; simp at hmr
            | some n =>
                rw [hc, hn] at hmr
                simp only [List.cons.injEq, and_true] at hmr
                rw [← hmr, hr]
      have hmid1 : caseMid (l₁ ++ r :: l₂)
          = caseMid l₁ ++ x :: caseMid l₂ := by
        rw [hsplit, hmr]
        simp
      have hmid2 : caseMid (l₁ ++ l₂) = caseMid l₁ ++ caseMid l₂ :=
        caseMid_append l₁ l₂
      simp only [clean_cases_df]
      rw [hmid1, hmid2]
      exact clean_cases_group_insert (caseMid l₁) (caseMid l₂) x
        (caseKey_none_of_date hxdate)
  · intro l₁ l₂ r hr
    have hsplit : hospMid (l₁ ++ r :: l₂)
        = hospMid l₁ ++ hospMid [r] ++ hospMid l₂ := by
      rw [show l₁ ++ r :: l₂ = l₁ ++ [r] ++ l₂ by simp]
      rw [hospMid_append, hospMid_append]
    rcases hmr : hospMid [r] with _ | ⟨x, xt⟩
    · have hmid : hospMid (l₁ ++ r :: l₂) = hospMid (l₁ ++ l₂) := by
        rw [hsplit, hmr, hospMid_append]
        simp
      simp only [clean_hospital_df]
      rw [hmid]
    · have hxt : xt = [] := by
        have hlen : (hospMid [r]).length ≤ 1 := by
          unfold hospMid
          cases hc : r.Municipality_code <;> cases hn : r.Municipality_name <;>
            simp [List.filterMap_cons, hc, hn]
        rw [hmr] at hlen
        simp only [List.length_cons] at hlen
        exact List.length_eq_zero.mp (by omega)
      subst hxt
      have hxdate : x.Date = none := by
        unfold hospMid at hmr
        simp only [List.filterMap_cons, List.filterMap_nil] at hmr
        cases hc : r.Municipality_code with
        | none => rw [hc] at hmr; simp at hmr
        | some c =>
            cases hn : r.Municipality_name with
            | none => rw [hc, hn] at hmr; simp at hmr
            | some n =>
                rw [hc, hn] at hmr
                simp only [List.cons.injEq, and_true] at hmr
                rw [← hmr, hr]
      have hmid1 : hospMid (l₁ ++ r :: l₂)
          = hospMid l₁ ++ x :: hospMid l₂ := by
        rw [hsplit, hmr]
        simp
      have hmid2 : hospMid (l₁ ++ l₂) = hospMid l₁ ++ hospMid l₂ :=
        hospMid_append l₁ l₂
      simp only [clean_hospital_df]
      rw [hmid1, hmid2]
      exact clean_hosp_group_insert (hospMid l₁) (hospMid l₂) x
        (hospKey_none_of_date hxdate)
  · intro rows out hout
    simp only [clean_cases_df] at hout
    obtain ⟨k, hk, hmk⟩ := List.mem_map.mp hout
    have hkmem : k ∈ (caseMid rows).filterMap caseKey :=
      List.mem_dedup.mp ((mem_sortKeys caseKeyLE _ k).mp hk)
    obtain ⟨m, hm, hkey⟩ := List.mem_filterMap.mp hkmem
    obtain ⟨rin, hrin, hg⟩ := List.mem_filterMap.mp hm
    refine ⟨rin, hrin, ?_⟩
    have hdate : m.Date = some k.1 := caseKey_date hkey
    have hrd : rin.Date_of_publication = m.Date := by
      cases hc : rin.Municipality_code <;> cases hn : rin.Municipality_name <;>
        rw [hc, hn] at hg <;> simp at hg
      rw [← hg]
    rw [hrd, hdate, ← hmk]
  · intro rows out hout
    simp only [clean_hospital_df] at hout
    obtain ⟨k, hk, hmk⟩ := List.mem_map.mp hout
    have hkmem : k ∈ (hospMid rows).filterMap hospKey :=
      List.mem_dedup.mp ((mem_sortKeys hospKeyLE _ k).mp hk)
    obtain ⟨m, hm, hkey⟩ := List.mem_filterMap.mp hkmem
    obtain ⟨rin, hrin, hg⟩ := List.mem_filterMap.mp hm
    refine ⟨rin, hrin, ?_⟩
    have hdate : m.Date = some k.1 := hospKey_date hkey
    have hrd : rin.Date_of_statistics = m.Date := by
      cases hc : rin.Municipality_code <;> cases hn : rin.Municipality_name <;>
        rw [hc, hn] at hg <;> simp at hg
      rw [← hg]
    rw [hrd, hdate, ← hmk]

/-- Witness: inserting a case row and a hospital row with unparseable
dates leaves both cleaner outputs unchanged. -/
theorem C9_null_dates_dropped_witness :
    clean_cases_df [caseGoodRow, caseBadRow] = clean_cases_df [caseGoodRow] ∧
    clean_hospital_df [hospGoodRow, hospBadRow]
      = clean_hospital_df [hospGoodRow] := by
  constructor
  · exact C9_null_dates_dropped.1 [caseGoodRow] [] caseBadRow rfl
  · exact C9_null_dates_dropped.2.1 [hospGoodRow] [] hospBadRow rfl

/-!  The three-way merge of the case cleaner. -/

/-- Claim C2, amended: for every input case table and date, if no input
row already carries the successor code GM1992 on that date, and every
legacy-coded row on that date has a present name and province, then the
reported-case total of the cleaned rows with code GM1992 on that date
equals the reported-case total of the legacy-coded input rows on that
date. -/
theorem C2_merge_conservation_amended (rows : List CaseInRow) (d : DateV)
    (H1 : ∀ r ∈ rows, r.Date_of_publication = some d →
       ∀ c, r.Municipality_code = some c → c ∈ old_codes →
       r.Municipality_name.isSome ∧ r.Province.isSome)
    (H2 : ∀ r ∈ rows, r.Date_of_publication = some d →
       r.Municipality_code ≠ some new_code) :
    caseTotalFor (clean_cases_df rows) new_code d
      = legacyCasesTotalOn rows d := by
  unfold caseTotalFor clean_cases_df
  rw [List.filter_map, List.map_map]
  have h := grouped_sum_filter caseKeyLE caseKey (·.Total_reported)
    (caseMid rows) (fun k => k.2.1 == new_code && decide (k.1 = d))
  rw [show (List.map
      ((fun r : CaseOutRow => r.Total_reported) ∘ fun k =>
        ({ Date := k.1, Municipality_code := k.2.1,
           Municipality_name := k.2.2.1, Province := k.2.2.2,
           Total_reported := sumVal (·.Total_reported)
             ((caseMid rows).filter fun r => decide (caseKey r = some k)),
           Deceased := sumVal (·.Deceased)
             ((caseMid rows).filter fun r => decide (caseKey r = some k)),
           Year := k.1.y, Month := (k.1.y, k.1.m) } : CaseOutRow))
      ((groupKeys caseKeyLE caseKey (caseMid rows)).filter
        ((fun r : CaseOutRow => r.Municipality_code == new_code && decide (r.Date = d))
          ∘ fun k =>
        ({ Date := k.1, Municipality_code := k.2.1,
           Municipality_name := k.2.2.1, Province := k.2.2.2,
           Total_reported := sumVal (·.Total_reported)
             ((caseMid rows).filter fun r => decide (caseKey r = some k)),
           Deceased := sumVal (·.Deceased)
             ((caseMid rows).filter fun r => decide (caseKey r = some k)),
           Year := k.1.y, Month := (k.1.y, k.1.m) } : CaseOutRow)))).sum
    = (((groupKeys caseKeyLE caseKey (caseMid rows)).filter
        (fun k => k.2.1 == new_code && decide (k.1 = d))).map fun k =>
        sumVal (·.Total_reported)
          ((caseMid rows).filter fun r => decide (caseKey r = some k))).sum
    from rfl]
  rw [h]
  unfold caseMid
  rw [sumVal_filterMap_filter]
  unfold legacyCasesTotalOn
  rw [sumVal_filter_guard]
  apply sumVal_congr
  intro r hr
  cases hc : r.Municipality_code with
  | none => simp [optTest, hc]
  | some c =>
      cases hn : r.Municipality_name with
      | none =>
          simp only [hc, hn, Option.bind_eq_bind, Option.none_bind]
          by_cases hdd : r.Date_of_publication = some d
          · by_cases hco : c ∈ old_codes
            · exact absurd ((H1 r hr hdd c hc hco).1) (by simp [hn])
            · simp [optTest, hdd, hc, hco]
          · simp [optTest, hdd, hc]
      | some n =>
          simp only [hc, hn, Option.bind_eq_bind, Option.some_bind]
          cases hdd : r.Date_of_publication with
          | none => simp [optTest, caseKey]
          | some dv =>
              cases hp : r.Province with
              | none =>
                  by_cases hdv : dv = d
                  · subst hdv
                    by_cases hco : c ∈ old_codes
                    · exact absurd ((H1 r hr hdd c hc hco).2) (by simp [hp])
                    · simp [optTest, caseKey, hco]
                  · simp [optTest, caseKey, hdv]
              | some pv =>
                  by_cases hdv : dv = d
                  · subst hdv
                    have hcnew : c ≠ new_code := fun hceq =>
                      H2 r hr hdd (by rw [hc, hceq])
                    by_cases hco : c ∈ old_codes
                    · have hrep : replaceCaseCode c = new_code := by
                        unfold replaceCaseCode
                        simp [hco]
                      simp [optTest, caseKey, hco, hrep]
                    · have hrep : ¬(replaceCaseCode c = new_code) := by
                        unfold replaceCaseCode
                        simp only [if_neg hco]
                        exact hcnew
                      simp [optTest, caseKey, hco, hrep]
                  · simp [optTest, caseKey, hdv]

set_option maxRecDepth 100000 in
/-- Claim C2 as stated is false: when the input already carries a native
row with the successor code on the date, the cleaned successor total (25)
is not the legacy-code total (18). -/
theorem C2_counterexample :
    caseTotalFor (clean_cases_df caseNative) new_code exDate = 25 ∧
    legacyCasesTotalOn caseNative exDate = 18 ∧
    (25 : ℚ) ≠ 18 := by
  refine ⟨?_, ?_, by norm_num⟩
  · with_unfolding_all rfl
  · with_unfolding_all rfl

set_option maxRecDepth 100000 in
/-- Witness: the concrete scenario with rows 10, 5, 3 on the three
legacy codes yields the single successor row with total 18, conserving
the legacy sum. -/
theorem C2_merge_conservation_amended_witness :
    caseTotalFor (clean_cases_df caseScenario) new_code exDate
      = legacyCasesTotalOn caseScenario exDate ∧
    clean_cases_df caseScenario
      = [{ Date := exDate, Municipality_code := new_code,
           Municipality_name := new_name, Province := "Zuid-Holland",
           Total_reported := 18, Deceased := 0,
           Year := 2021, Month := (2021, 1) }] ∧
    legacyCasesTotalOn caseScenario exDate = 18 := by
  refine ⟨?_, by with_unfolding_all rfl, by with_unfolding_all rfl⟩
  apply C2_merge_conservation_amended
  · intro r hr hd c hcode hold
    simp only [caseScenario, List.mem_cons, List.not_mem_nil, or_false] at hr
    rcases hr with rfl | rfl | rfl <;> exact ⟨rfl, rfl⟩
  · intro r hr hd
    simp only [caseScenario, List.mem_cons, List.not_mem_nil, or_false] at hr
    rcases hr with rfl | rfl | rfl <;> decide

/-!  Obsolete codes and the population harmonization. -/

theorem lookup_none_not_key {β : Type} (c : String) :
    ∀ l : List (String × β), l.lookup c = none → c ∉ l.map Prod.fst := by
  intro l
  induction l with
  | nil => intro _ h; cases h
  | cons p ps ih =>
      intro hl hmem
      unfold List.lookup at hl
      cases hc : c == p.1 with
      | true => rw [hc] at hl; simp at hl
      | false =>
          rw [hc] at hl
          simp only [] at hl
          rw [List.map_cons] at hmem
          rcases List.mem_cons.mp hmem with h1 | h1
          · rw [h1] at hc
            simp at hc
          · exact ih hl h1

theorem lookup_some_mem_values {β : Type} (c : String) (t : β) :
    ∀ l : List (String × β), l.lookup c = some t → t ∈ l.map Prod.snd := by
  intro l
  induction l with
  | nil => intro h; cases h
  | cons p ps ih =>
      intro hl
      unfold List.lookup at hl
      cases hc : c == p.1 with
      | true =>
          rw [hc] at hl
          simp only [Option.some.injEq] at hl
          simp [← hl]
      | false =>
          rw [hc] at hl
          simp only [] at hl
          simp [ih hl]

/-- The replacement map never produces one of its own obsolete keys. -/
theorem replaceCode_not_obsolete (c : String) :
    replaceCode c ∉ fused_municipality_map.map Prod.fst := by
  unfold replaceCode
  cases hl : fused_municipality_map.lookup c with
  | none => exact lookup_none_not_key c _ hl
  | some t =>
      have hv : t ∈ fused_municipality_map.map Prod.snd :=
        lookup_some_mem_values c t _ hl
      have hdis : ∀ v ∈ fused_municipality_map.map Prod.snd,
          v ∉ fused_municipality_map.map Prod.fst := by decide
      exact hdis t hv

/-- Generic invariant preservation along a left fold. -/
theorem foldl_invariant {σ ι : Type} (P : σ → Prop) (step : σ → ι → σ)
    (l : List ι) (s : σ) (h0 : P s)
    (hstep : ∀ t i, i ∈ l → P t → P (step t i)) : P (l.foldl step s) := by
  induction l generalizing s with
  | nil => exact h0
  | cons i il ih =>
      exact ih (step s i) (hstep s i (by simp) h0)
        (fun t j hj => hstep t j (by simp [hj]))

/-- The inner redistribution step only introduces the receiving code. -/
theorem applySplitCode_codes (df : List PopRow) (y : Int) (s : ℚ)
    (c : String) (r : PopRow) (hr : r ∈ applySplitCode df y s c) :
    r.Municipality_code ∈ df.map (·.Municipality_code) ∨
      r.Municipality_code = c := by
  unfold applySplitCode at hr
  by_cases hany : df.any (matchKey c y)
  · rw [if_pos hany] at hr
    obtain ⟨r0, hr0, hmap⟩ := List.mem_map.mp hr
    left
    by_cases hm : matchKey c y r0
    · rw [if_pos hm] at hmap
      rw [← hmap]
      simpa using List.mem_map_of_mem (fun x => x.Municipality_code) hr0
    · rw [if_neg hm] at hmap
      rw [← hmap]
      exact List.mem_map_of_mem _ hr0
  · rw [if_neg hany] at hr
    rcases List.mem_append.mp hr with h1 | h1
    · exact Or.inl (List.mem_map_of_mem _ h1)
    · right
      simp only [List.mem_singleton] at h1
      rw [h1]

/-- The Haaren redistribution only introduces receiving codes. -/
theorem redistributeHaaren_codes (df : List PopRow) (r : PopRow)
    (hr : r ∈ redistributeHaaren df) :
    r.Municipality_code ∈ df.map (·.Municipality_code) ∨
      r.Municipality_code ∈ receiving_codes := by
  have hdef : redistributeHaaren df
      = (uniqueFirst ((df.filter fun r =>
          r.Municipality_code == haaren_code && r.Population.isSome).map
            (·.Year))).foldl
        (fun acc y => receiving_codes.foldl
          (fun acc2 c => applySplitCode acc2 y
            (((((df.filter fun r =>
              r.Municipality_code == haaren_code &&
                r.Population.isSome).filter fun r =>
                  r.Year == y).head?).bind (·.Population)).getD 0 / 4) c)
          acc)
        df := rfl
  rw [hdef] at hr
  refine foldl_invariant
    (fun acc => ∀ x ∈ acc,
      x.Municipality_code ∈ df.map (·.Municipality_code) ∨
        x.Municipality_code ∈ receiving_codes)
    _ _ df (fun x hx => Or.inl (List.mem_map_of_mem _ hx)) ?_ r hr
  intro acc y _ hacc
  refine foldl_invariant
    (fun acc2 => ∀ x ∈ acc2,
      x.Municipality_code ∈ df.map (·.Municipality_code) ∨
        x.Municipality_code ∈ receiving_codes)
    _ _ acc hacc ?_
  intro acc2 c hc hacc2 x hx
  rcases applySplitCode_codes acc2 y _ c x hx with h1 | h1
  · obtain ⟨x0, hx0, hcode⟩ := List.mem_map.mp h1
    rcases hacc2 x0 hx0 with h2 | h2
    · exact Or.inl (hcode ▸ h2)
    · exact Or.inr (hcode ▸ h2)
  · exact Or.inr (h1 ▸ hc)

/-- Claim C5: the harmonized population table carries no obsolete code of
the fused-municipality remap table, carries the dissolved code GM0788 in
no row, and has at most one row per (code, year). -/
theorem C5_no_obsolete_codes (raw : List PopInRow) (out : List PopOutRow)
    (h : clean_population_df raw = some out) :
    (∀ r ∈ out, r.Municipality_code ∉ fused_municipality_map.map Prod.fst ∧
       r.Municipality_code ≠ haaren_code) ∧
    (out.map fun r => (r.Municipality_code, r.Year)).Nodup := by
  unfold clean_population_df at h
  cases hp : popParse raw with
  | none => rw [hp] at h; cases h
  | some df =>
      rw [hp] at h
      simp only [Option.map_some', Option.some.injEq] at h
      subst h
      unfold popHarmonize
      constructor
      · intro r hr
        obtain ⟨k, hk, hmk⟩ := List.mem_map.mp hr
        have hkmem : k ∈ (((redistributeHaaren (df.map fun r =>
            { r with Municipality_code := replaceCode r.Municipality_code })).filter
              fun r => r.Municipality_code ≠ haaren_code).filterMap popKey) :=
          List.mem_dedup.mp ((mem_sortKeys popKeyLE _ k).mp hk)
        obtain ⟨m, hm, hkey⟩ := List.mem_filterMap.mp hkmem
        have hmcode : m.Municipality_code = k.1 := by
          unfold popKey at hkey
          cases hkey
          rfl
        have hm2 := List.mem_filter.mp hm
        have hmnh : m.Municipality_code ≠ haaren_code := by
          simpa using hm2.2
        have hcode := redistributeHaaren_codes _ m hm2.1
        have hrcode : r.Municipality_code = k.1 := by rw [← hmk]
        refine ⟨?_, by rw [hrcode, ← hmcode]; exact hmnh⟩
        rw [hrcode, ← hmcode]
        rcases hcode with h1 | h1
        · rw [List.map_map] at h1
          obtain ⟨r1, _, hr1⟩ := List.mem_map.mp h1
          have : m.Municipality_code = replaceCode r1.Municipality_code := by
            rw [← hr1]
            rfl
          rw [this]
          exact replaceCode_not_obsolete r1.Municipality_code
        · have hrec : ∀ v ∈ receiving_codes,
              v ∉ fused_municipality_map.map Prod.fst := by decide
          exact hrec _ h1
      · have hnodup : (groupKeys popKeyLE popKey
            (((redistributeHaaren (df.map fun r =>
              { r with Municipality_code := replaceCode r.Municipality_code })).filter
                fun r => r.Municipality_code ≠ haaren_code))).Nodup := by
          unfold groupKeys sortKeys
          exact ((List.perm_insertionSort _ _).nodup_iff).mpr (List.nodup_dedup _)
        rw [List.map_map]
        have heq : ((fun r : PopOutRow => (r.Municipality_code, r.Year)) ∘ fun k =>
            ({ Municipality_code := k.1, Year := k.2,
               Population := sumVal (·.Population)
                 ((((redistributeHaaren (df.map fun r =>
                   { r with Municipality_code := replaceCode r.Municipality_code })).filter
                     fun r => r.Municipality_code ≠ haaren_code)).filter
                   fun r => decide (popKey r = some k)) } : PopOutRow))
            = fun k : String × Int => (k.1, k.2) := rfl
        rw [heq]
        simpa using hnodup

set_option maxRecDepth 100000 in
/-- Witness: on a table holding an obsolete code, the dissolved code and
a plain code, the harmonized output has no obsolete or dissolved code and
one row per key. -/
theorem C5_no_obsolete_codes_witness :
    clean_population_df popObsolete = some popObsoleteOut ∧
    (∀ r ∈ popObsoleteOut,
       r.Municipality_code ∉ fused_municipality_map.map Prod.fst ∧
       r.Municipality_code ≠ haaren_code) ∧
    (popObsoleteOut.map fun r => (r.Municipality_code, r.Year)).Nodup := by
  have h : clean_population_df popObsolete = some popObsoleteOut := by
    with_unfolding_all rfl
  exact ⟨h, C5_no_obsolete_codes popObsolete popObsoleteOut h⟩

/-!  Level consistency of the geo-aggregates. -/

theorem filterMap_guard {κ γ : Type} (p : κ → Bool) (t : κ → γ) :
    ∀ ks : List κ,
      (ks.filterMap fun k => if p k then some (t k) else none)
        = (ks.filter p).map t := by
  intro ks
  induction ks with
  | nil => rfl
  | cons k kt ih =>
      cases hp : p k <;>
        simp [List.filterMap_cons, List.filter_cons, hp, ih]

theorem sum_filter_map_keys {κ β : Type} (ks : List κ) (mk : κ → β)
    (pr : β → Bool) (f : β → ℚ) (pk : κ → Bool) (t : κ → ℚ)
    (hpr : ∀ k, pr (mk k) = pk k) (hf : ∀ k, f (mk k) = t k) :
    (((ks.map mk).filter pr).map f).sum = ((ks.filter pk).map t).sum := by
  rw [List.filter_map, List.map_map]
  have h1 : ks.filter (pr ∘ mk) = ks.filter pk :=
    List.filter_congr (fun k _ => hpr k)
  rw [h1]
  congr 1
  exact List.map_congr_left (fun k _ => hf k)

theorem natKey_fields {r : GdfMunRow} {k : DateV × Int × (Int × Int)}
    (h : natKey r = some k) :
    r.Date = some k.1 ∧ r.Year = some k.2.1 ∧ r.Month = some k.2.2 := by
  unfold natKey at h
  cases hd : r.Date with
  | none => rw [hd] at h; simp at h
  | some dv =>
      cases hy : r.Year with
      | none => rw [hd, hy] at h; simp at h
      | some y =>
          cases hm : r.Month with
          | none => rw [hd, hy, hm] at h; simp at h
          | some m =>
              rw [hd, hy, hm] at h
              simp only [Option.bind_eq_bind, Option.some_bind,
                Option.pure_def] at h
              have hk := Option.some.inj h
              subst hk
              exact ⟨rfl, rfl, rfl⟩

theorem provKey_fields {r : GdfMunRow}
    {k : DateV × Int × (Int × Int) × String} (h : provKey r = some k) :
    r.Date = some k.1 ∧ r.Year = some k.2.1 ∧ r.Month = some k.2.2.1 ∧
      r.Province = some k.2.2.2 := by
  unfold provKey at h
  cases hd : r.Date with
  | none => rw [hd] at h; simp at h
  | some dv =>
      cases hy : r.Year with
      | none => rw [hd, hy] at h; simp at h
      | some y =>
          cases hm : r.Month with
          | none => rw [hd, hy, hm] at h; simp at h
          | some m =>
              cases hp : r.Province with
              | none => rw [hd, hy, hm, hp] at h; simp at h
              | some p =>
                  rw [hd, hy, hm, hp] at h
                  simp only [Option.bind_eq_bind, Option.some_bind,
                    Option.pure_def] at h
                  have hk := Option.some.inj h
                  subst hk
                  exact ⟨rfl, rfl, rfl, rfl⟩

/-- National aggregation preserves the per-date case total when Year and
Month are present on every row. -/
theorem natTotal_eq_munTotal (rows : List GdfMunRow)
    (H : ∀ r ∈ rows, r.Year.isSome ∧ r.Month.isSome) (d : DateV) :
    natTotalOn rows d = munTotalOn rows d := by
  simp only [natTotalOn, create_national_geodata]
  rw [sum_filter_map_keys (groupKeys natKeyLE natKey rows) (mkNatRow rows)
    (fun r => decide (r.Date = d)) (fun r => r.Total_reported)
    (fun k => decide (k.1 = d))
    (fun k => sumVal (fun r : GdfMunRow => r.Total_reported)
      (rows.filter fun r => decide (natKey r = some k)))
    (fun k => rfl) (fun k => rfl)]
  rw [grouped_sum_filter natKeyLE natKey (·.Total_reported) rows
    (fun k => decide (k.1 = d))]
  unfold munTotalOn
  congr 1
  apply List.filter_congr
  intro r hr
  obtain ⟨hy, hm⟩ := H r hr
  obtain ⟨y, hy2⟩ := Option.isSome_iff_exists.mp hy
  obtain ⟨m, hm2⟩ := Option.isSome_iff_exists.mp hm
  cases hdt : r.Date with
  | none =>
      have hk : natKey r = none := by simp [natKey, hdt]
      simp [hk, optTest, hdt]
  | some dv =>
      have hk : natKey r = some (dv, y, m) := by simp [natKey, hdt, hy2, hm2]
      simp [hk, optTest, hdt]

theorem flatMap_congr {α β : Type} {l : List α} {f g : α → List β}
    (h : ∀ a ∈ l, f a = g a) : l.flatMap f = l.flatMap g := by
  induction l with
  | nil => rfl
  | cons a as ih =>
      rw [List.flatMap_cons, List.flatMap_cons, h a (by simp),
        ih (fun b hb => h b (by simp [hb]))]

/-- The data payloads of the province geodata are exactly the province
statistics rows of the provinces that have a dissolved shape. -/
theorem provGeo_data (rows : List GdfMunRow) :
    (create_province_geodata rows).filterMap (·.data)
      = (provShapes rows).flatMap
          (fun s => (provStats rows).filter fun st => st.Province == s.1) := by
  unfold create_province_geodata
  rw [List.filterMap_flatMap]
  apply flatMap_congr
  intro s _
  rcases hms : (provStats rows).filter (fun st => st.Province == s.1)
    with _ | ⟨s0, stl⟩
  · rw [hms]
    rfl
  · rw [hms]
    simp only []
    rw [List.filterMap_map]
    exact List.filterMap_some _

theorem sum_map_eq_sumVal_some {β : Type} (f : β → ℚ) (l : List β) :
    (l.map f).sum = sumVal (fun b => some (f b)) l := by
  unfold sumVal
  rw [show l.filterMap (fun b => some (f b)) = l.map f from
    List.filterMap_eq_map f ▸ rfl]

/-- Every province appearing in the aggregated statistics has a
dissolved shape, provided every row has a present province and
geometry. -/
theorem provStats_prov_mem (rows : List GdfMunRow)
    (H : ∀ r ∈ rows, r.Province.isSome ∧ r.geometry.isSome)
    (st : ProvStatRow) (hst : st ∈ provStats rows) :
    st.Province ∈ groupKeys strLE (fun r => r.Province)
      (rows.filter fun r => r.Province.isSome && r.geometry.isSome) := by
  unfold provStats at hst
  obtain ⟨k, hk, hmk⟩ := List.mem_map.mp hst
  have hkmem : k ∈ rows.filterMap provKey :=
    List.mem_dedup.mp ((mem_sortKeys provKeyLE _ k).mp hk)
  obtain ⟨r, hr, hkey⟩ := List.mem_filterMap.mp hkmem
  have hfields := provKey_fields hkey
  have hstp : st.Province = k.2.2.2 := by rw [← hmk]; exact rfl
  rw [hstp]
  apply (mem_sortKeys _ _ _).mpr
  apply List.mem_dedup.mpr
  apply List.mem_filterMap.mpr
  refine ⟨r, List.mem_filter.mpr ⟨hr, ?_⟩, hfields.2.2.2⟩
  have hg := (H r hr).2
  have hp := (H r hr).1
  simp [hp, hg]

theorem groupKeys_nodup {α κ : Type} [DecidableEq κ] (le : κ → κ → Bool)
    (key : α → Option κ) (rows : List α) : (groupKeys le key rows).Nodup := by
  unfold groupKeys sortKeys
  exact ((List.perm_insertionSort _ _).nodup_iff).mpr (List.nodup_dedup _)

/-- Province aggregation followed by the shape merge preserves the
per-date case total when Year, Month, Province and geometry are present
on every row. -/
theorem provTotal_eq_munTotal (rows : List GdfMunRow)
    (H : ∀ r ∈ rows, r.Year.isSome ∧ r.Month.isSome ∧
       r.Province.isSome ∧ r.geometry.isSome) (d : DateV) :
    provTotalOn rows d = munTotalOn rows d := by
  unfold provTotalOn
  rw [provGeo_data, List.filter_flatMap, sum_map_flatMap]
  have hconv1 : ∀ s ∈ provShapes rows,
      ((((provStats rows).filter fun st => st.Province == s.1).filter
          fun st => decide (st.Date = d)).map
        (fun st : ProvStatRow => st.Total_reported)).sum
      = sumVal (fun st : ProvStatRow =>
          if decide (st.Date = d) then some st.Total_reported else none)
          ((provStats rows).filter fun st =>
            decide (some st.Province = some s.1)) := by
    intro s _
    rw [sum_map_eq_sumVal_some, sumVal_filter_guard]
    congr 1
    apply List.filter_congr
    intro st _
    by_cases hsp : st.Province = s.1 <;> simp [hsp]
  rw [List.map_congr_left hconv1]
  unfold provShapes
  rw [List.map_map]
  rw [show ((fun s : String × List Int =>
      sumVal (fun st : ProvStatRow =>
          if decide (st.Date = d) then some st.Total_reported else none)
        ((provStats rows).filter fun st =>
          decide (some st.Province = some s.1))) ∘
      (fun p : String => (p,
        (((rows.filter fun r => r.Province.isSome && r.geometry.isSome).filter
          fun r => decide (r.Province = some p)).filterMap (·.geometry)))))
    = fun p : String =>
      sumVal (fun st : ProvStatRow =>
          if decide (st.Date = d) then some st.Total_reported else none)
        ((provStats rows).filter fun st =>
          decide ((fun st : ProvStatRow => some st.Province) st = some p))
    from rfl]
  rw [sum_over_groups (fun st : ProvStatRow => some st.Province)
    (fun st : ProvStatRow =>
      if decide (st.Date = d) then some st.Total_reported else none)
    (provStats rows)
    (groupKeys strLE (fun r => r.Province)
      (rows.filter fun r => r.Province.isSome && r.geometry.isSome))
    (groupKeys_nodup _ _ _)]
  rw [List.filter_eq_self.mpr ?cov]
  case cov =>
    intro st hst
    have hmem := provStats_prov_mem rows
      (fun r hr => ⟨(H r hr).2.2.1, (H r hr).2.2.2⟩) st hst
    simp [optTest, hmem]
  rw [show sumVal (fun st : ProvStatRow =>
      if decide (st.Date = d) then some st.Total_reported else none)
      (provStats rows)
    = ((provStats rows).filterMap (fun st : ProvStatRow =>
        if decide (st.Date = d) then some st.Total_reported else none)).sum
    from rfl]
  unfold provStats
  rw [List.filterMap_map]
  rw [show ((fun st : ProvStatRow =>
      if decide (st.Date = d) then some st.Total_reported else none) ∘
        mkProvStatRow rows)
    = (fun k : DateV × Int × (Int × Int) × String =>
        if decide (k.1 = d) then
          some (sumVal (fun r : GdfMunRow => r.Total_reported)
            (rows.filter fun r => decide (provKey r = some k)))
        else none)
    from rfl]
  rw [filterMap_guard]
  rw [grouped_sum_filter provKeyLE provKey (·.Total_reported) rows
    (fun k => decide (k.1 = d))]
  unfold munTotalOn
  congr 1
  apply List.filter_congr
  intro r hr
  obtain ⟨hy, hm, hp, _⟩ := H r hr
  obtain ⟨y, hy2⟩ := Option.isSome_iff_exists.mp hy
  obtain ⟨m, hm2⟩ := Option.isSome_iff_exists.mp hm
  obtain ⟨p, hp2⟩ := Option.isSome_iff_exists.mp hp
  cases hdt : r.Date with
  | none =>
      have hk : provKey r = none := by simp [provKey, hdt]
      simp [hk, optTest, hdt]
  | some dv =>
      have hk : provKey r = some (dv, y, m, p) := by
        simp [provKey, hdt, hy2, hm2, hp2]
      simp [hk, optTest, hdt]

/-- Claim C6, amended: when every municipality-level row carries a
present Year, Month, Province and geometry, the national case total for
any date equals the sum of the province-level case totals for that date,
which equals the sum of the municipality-level case totals for that
date. -/
theorem C6_level_consistency_amended (rows : List GdfMunRow)
    (H : ∀ r ∈ rows, r.Year.isSome ∧ r.Month.isSome ∧
       r.Province.isSome ∧ r.geometry.isSome) (d : DateV) :
    natTotalOn rows d = provTotalOn rows d ∧
    provTotalOn rows d = munTotalOn rows d := by
  have h1 := natTotal_eq_munTotal rows
    (fun r hr => ⟨(H r hr).1, (H r hr).2.1⟩) d
  have h2 := provTotal_eq_munTotal rows H d
  exact ⟨h1.trans h2.symm, h2⟩

set_option maxRecDepth 100000 in
/-- Claim C6 as stated is false: a row whose geometry is missing is
dropped from the dissolved province shapes, so its count is absent from
the province level (0) while present at the national and municipality
levels (5). -/
theorem C6_counterexample :
    natTotalOn gdfNoGeom exDate = 5 ∧
    munTotalOn gdfNoGeom exDate = 5 ∧
    provTotalOn gdfNoGeom exDate = 0 ∧
    (5 : ℚ) ≠ 0 := by
  refine ⟨?_, ?_, ?_, by norm_num⟩
  · with_unfolding_all rfl
  · with_unfolding_all rfl
  · with_unfolding_all rfl

set_option maxRecDepth 100000 in
/-- Witness: on two fully-populated rows over two provinces the three
levels agree, with total 21. -/
theorem C6_level_consistency_amended_witness :
    (natTotalOn gdfTwoProv exDate = provTotalOn gdfTwoProv exDate ∧
     provTotalOn gdfTwoProv exDate = munTotalOn gdfTwoProv exDate) ∧
    munTotalOn gdfTwoProv exDate = 21 := by
  constructor
  · apply C6_level_consistency_amended
    intro r hr
    simp only [gdfTwoProv, List.mem_cons, List.not_mem_nil, or_false] at hr
    rcases hr with rfl | rfl <;> exact ⟨rfl, rfl, rfl, rfl⟩
  · with_unfolding_all rfl

/-!  The Haaren redistribution: conservation and per-year additions. -/

theorem lookup_eq_none_of_not_key {β : Type} (c : String) :
    ∀ l : List (String × β), c ∉ l.map Prod.fst → l.lookup c = none := by
  intro l
  induction l with
  | nil => intro _; rfl
  | cons p ps ih =>
      intro hmem
      unfold List.lookup
      cases hc : c == p.1 with
      | true =>
          exfalso
          apply hmem
          rw [List.map_cons]
          exact List.mem_cons.mpr (Or.inl (by simpa using hc))
      | false =>
          simp only []
          apply ih
          intro hmem2
          apply hmem
          rw [List.map_cons]
          exact List.mem_cons.mpr (Or.inr hmem2)

/-- A code outside the keys of the replacement map is fixed by it. -/
theorem replaceCode_fixed (c : String)
    (hck : c ∉ fused_municipality_map.map Prod.fst) : replaceCode c = c := by
  unfold replaceCode
  rw [lookup_eq_none_of_not_key c _ hck]

/-- Being mapped onto a code outside keys and values is being that code. -/
theorem replaceCode_beq (c : String)
    (hck : c ∉ fused_municipality_map.map Prod.fst)
    (hcv : c ∉ fused_municipality_map.map Prod.snd) :
    ∀ s, (replaceCode s == c) = (s == c) := by
  intro s
  cases hsc : s == c with
  | true =>
      have : s = c := by simpa using hsc
      subst this
      rw [replaceCode_fixed s hck]
      simp
  | false =>
      have hne : s ≠ c := by simpa using hsc
      cases hrc : replaceCode s == c with
      | false => rfl
      | true =>
          exfalso
          have hreq : replaceCode s = c := by simpa using hrc
          unfold replaceCode at hreq
          cases hl : fused_municipality_map.lookup s with
          | none => rw [hl] at hreq; exact hne hreq
          | some t =>
              rw [hl] at hreq
              apply hcv
              rw [← hreq]
              exact lookup_some_mem_values s t _ hl

/-- Filtering on a (code, year) match commutes with the fused-code
replacement when the code is outside the map. -/
theorem remap_filter_matchKey (df : List PopRow) (c : String) (y : Int)
    (hck : c ∉ fused_municipality_map.map Prod.fst)
    (hcv : c ∉ fused_municipality_map.map Prod.snd) :
    ((df.map fun r =>
        { r with Municipality_code := replaceCode r.Municipality_code }).filter
      (matchKey c y))
      = df.filter (matchKey c y) := by
  apply filter_map_eq_filter
  · intro r
    show (replaceCode r.Municipality_code == c && r.Year == y)
      = (r.Municipality_code == c && r.Year == y)
    rw [replaceCode_beq c hck hcv]
  · intro r hpr
    have hc : r.Municipality_code = c := by
      have := (Bool.and_eq_true_iff.mp hpr).1
      simpa using this
    show ({ r with Municipality_code := replaceCode r.Municipality_code } : PopRow) = r
    rw [hc, replaceCode_fixed c hck, ← hc]

/-- The valid Haaren rows are unchanged by the fused-code replacement. -/
theorem remap_haarenValid (df : List PopRow) (y : Int) :
    haarenValidAt (df.map fun r =>
        { r with Municipality_code := replaceCode r.Municipality_code }) y
      = haarenValidAt df y := by
  have hck : haaren_code ∉ fused_municipality_map.map Prod.fst := by decide
  have hcv : haaren_code ∉ fused_municipality_map.map Prod.snd := by decide
  unfold haarenValidAt
  apply filter_map_eq_filter
  · intro r
    show (r.Year == y &&
        (replaceCode r.Municipality_code == haaren_code && r.Population.isSome))
      = (r.Year == y && (r.Municipality_code == haaren_code && r.Population.isSome))
    rw [replaceCode_beq haaren_code hck hcv]
  · intro r hpr
    have hc : r.Municipality_code = haaren_code := by
      have := (Bool.and_eq_true_iff.mp ((Bool.and_eq_true_iff.mp hpr).2)).1
      simpa using this
    show ({ r with Municipality_code := replaceCode r.Municipality_code } : PopRow) = r
    rw [hc, replaceCode_fixed haaren_code hck, ← hc]

theorem sumVal_split {α : Type} (v : α → Option ℚ) (m : α → Bool)
    (l : List α) :
    sumVal v l = sumVal v (l.filter m) + sumVal v (l.filter fun r => !(m r)) := by
  rw [sumVal_filter_disjoint v m (fun r => !(m r)) l ?hdis]
  case hdis =>
    intro r hand
    obtain ⟨h1, h2⟩ := hand
    simp only [] at h2
    rw [h1] at h2
    simp at h2
  congr 1
  symm
  apply List.filter_eq_self.mpr
  intro a _
  cases m a <;> simp

/-- A match-irrelevant filter is unchanged by one redistribution step. -/
theorem applySplit_filter_preserve (df : List PopRow) (y : Int) (s : ℚ)
    (c : String) (p : PopRow → Bool)
    (happ : p { Municipality_code := c, Year := y, Population := some s } = false)
    (hinv : ∀ r : PopRow,
      p { r with Population := r.Population.map (· + s) } = p r)
    (hfix : ∀ r : PopRow, p r = true → matchKey c y r = false) :
    (applySplitCode df y s c).filter p = df.filter p := by
  unfold applySplitCode
  by_cases hany : df.any (matchKey c y)
  · rw [if_pos hany]
    apply filter_map_eq_filter
    · intro r
      by_cases hm : matchKey c y r
      · rw [if_pos hm, hinv r]
      · rw [if_neg hm]
    · intro r hpr
      rw [if_neg]
      have := hfix r hpr
      simp [this]
  · rw [if_neg hany, List.filter_append]
    rw [show List.filter p [(⟨c, y, some s⟩ : PopRow)] = [] from by
      simp [List.filter_cons, happ]]
    simp

/-- The row appended by the redistribution always matches its own key. -/
theorem matchKey_self (c : String) (y : Int) (q : Option ℚ) :
    matchKey c y { Municipality_code := c, Year := y, Population := q } = true := by
  simp [matchKey]

/-- One redistribution step adds exactly the split value both to the
total population and to the (code, year) group, and leaves the group
non-empty, provided the group held at most one row and that row had a
present population. -/
theorem applySplit_self (df : List PopRow) (y : Int) (s : ℚ) (c : String)
    (hlen : (df.filter (matchKey c y)).length ≤ 1)
    (hsome : ∀ r ∈ df.filter (matchKey c y), r.Population.isSome) :
    sumVal (·.Population) ((applySplitCode df y s c).filter (matchKey c y))
      = sumVal (·.Population) (df.filter (matchKey c y)) + s
    ∧ (applySplitCode df y s c).filter (matchKey c y) ≠ []
    ∧ sumVal (·.Population) (applySplitCode df y s c)
        = sumVal (·.Population) df + s := by
  unfold applySplitCode
  by_cases hany : df.any (matchKey c y)
  · rw [if_pos hany]
    have hcomm : (df.map fun r =>
        if matchKey c y r then
          { r with Population := r.Population.map (· + s) } else r).filter
          (matchKey c y)
        = (df.filter (matchKey c y)).map fun r =>
            if matchKey c y r then
              { r with Population := r.Population.map (· + s) } else r := by
      rw [List.filter_map]
      congr 1
      apply List.filter_congr
      intro r _
      show matchKey c y (if matchKey c y r then
          { r with Population := r.Population.map (· + s) } else r)
        = matchKey c y r
      by_cases hm : matchKey c y r
      · rw [if_pos hm]
        rw [show matchKey c y { r with Population := r.Population.map (· + s) }
          = matchKey c y r from rfl]
      · rw [if_neg hm]
    obtain ⟨x, hx⟩ := List.any_eq_true.mp hany
    have hxf : x ∈ df.filter (matchKey c y) := List.mem_filter.mpr ⟨hx.1, hx.2⟩
    have hpos : 0 < (df.filter (matchKey c y)).length :=
      List.length_pos_of_mem hxf
    have hlen1 : (df.filter (matchKey c y)).length = 1 := le_antisymm hlen hpos
    obtain ⟨r0, hr0⟩ := List.length_eq_one.mp hlen1
    have hr0mem : r0 ∈ df.filter (matchKey c y) := by rw [hr0]; simp
    have hmr0 : matchKey c y r0 = true := (List.mem_filter.mp hr0mem).2
    obtain ⟨q, hq⟩ := Option.isSome_iff_exists.mp (hsome r0 hr0mem)
    have hpart1 : sumVal (·.Population) ((df.map fun r =>
        if matchKey c y r then
          { r with Population := r.Population.map (· + s) } else r).filter
          (matchKey c y))
        = sumVal (·.Population) (df.filter (matchKey c y)) + s := by
      rw [hcomm, hr0]
      simp [sumVal_cons, if_pos hmr0, hq]
      ring
    refine ⟨hpart1, ?_, ?_⟩
    · rw [hcomm, hr0]
      simp
    · rw [sumVal_split (·.Population) (matchKey c y) (df.map fun r =>
        if matchKey c y r then
          { r with Population := r.Population.map (· + s) } else r)]
      rw [sumVal_split (·.Population) (matchKey c y) df]
      rw [hpart1]
      rw [show (df.map fun r =>
          if matchKey c y r then
            { r with Population := r.Population.map (· + s) } else r).filter
            (fun r => !(matchKey c y r))
          = df.filter (fun r => !(matchKey c y r)) from ?_]
      · ring
      · apply filter_map_eq_filter
        · intro r
          by_cases hm : matchKey c y r
          · rw [if_pos hm]
            rw [show matchKey c y { r with
                Population := r.Population.map (· + s) }
              = matchKey c y r from rfl]
          · rw [if_neg hm]
        · intro r hpr
          rw [if_neg]
          simp only [Bool.not_eq_true'] at hpr
          simp [hpr]
  · rw [if_neg hany]
    have hfilnil : df.filter (matchKey c y) = [] := by
      rw [List.filter_eq_nil_iff]
      intro a ha hma
      rw [List.any_eq_true] at hany
      exact hany ⟨a, ha, hma⟩
    refine ⟨?_, ?_, ?_⟩
    · rw [List.filter_append, hfilnil]
      simp [List.filter_cons, matchKey_self, sumVal_cons, sumVal_nil]
    · rw [List.filter_append, hfilnil]
      simp [List.filter_cons, matchKey_self]
    · rw [sumVal_append]
      simp [sumVal_cons, sumVal_nil]

theorem redistributeHaaren_eq_fold (df : List PopRow) :
    redistributeHaaren df
      = (uniqueFirst ((df.filter fun r =>
          r.Municipality_code == haaren_code && r.Population.isSome).map
            (·.Year))).foldl (haarenYearStep df) df := rfl

/-- One redistribution step leaves any other (code, year) group alone. -/
theorem applySplit_preserve_key (acc : List PopRow) (y : Int) (s : ℚ)
    (c c2 : String) (y2 : Int) (hne : c2 ≠ c ∨ y2 ≠ y) :
    (applySplitCode acc y s c).filter (matchKey c2 y2)
      = acc.filter (matchKey c2 y2) := by
  apply applySplit_filter_preserve
  · show ((c == c2) && (y == y2)) = false
    rcases hne with h | h
    · rw [show (c == c2) = false from by simpa using (Ne.symm h)]
      rfl
    · rw [show ((y : Int) == y2) = false from by simpa using (Ne.symm h)]
      simp
  · intro r
    rfl
  · intro r hpr
    have h1 : r.Municipality_code = c2 := by
      have := (Bool.and_eq_true_iff.mp hpr).1
      simpa using this
    have h2 : r.Year = y2 := by
      have := (Bool.and_eq_true_iff.mp hpr).2
      simpa using this
    show ((r.Municipality_code == c) && (r.Year == y)) = false
    rcases hne with h | h
    · rw [show (r.Municipality_code == c) = false from by simp [h1, h]]
      rfl
    · rw [show (r.Year == y) = false from by simp [h2, h]]
      simp

/-- One redistribution step with a receiving code leaves the set of
Haaren-coded rows alone. -/
theorem applySplit_preserve_haaren (acc : List PopRow) (y : Int) (s : ℚ)
    (c : String) (hch : c ≠ haaren_code) :
    (applySplitCode acc y s c).filter
        (fun r => r.Municipality_code == haaren_code)
      = acc.filter (fun r => r.Municipality_code == haaren_code) := by
  apply applySplit_filter_preserve
  · show (c == haaren_code) = false
    simpa using hch
  · intro r
    rfl
  · intro r hpr
    have h1 : r.Municipality_code = haaren_code := by simpa using hpr
    show ((r.Municipality_code == c) && (r.Year == y)) = false
    rw [show (r.Municipality_code == c) = false from by
      simp [h1, Ne.symm hch]]
    rfl

/-- A fold of redistribution steps over distinct codes: the total grows
by the split once per code, each processed (code, year) group grows by
the split and becomes non-empty, and every other group (and the set of
Haaren rows) is untouched. -/
theorem codes_fold (y : Int) (s : ℚ) :
    ∀ (cs : List String) (acc : List PopRow), cs.Nodup →
    (∀ c ∈ cs, (acc.filter (matchKey c y)).length ≤ 1 ∧
      ∀ r ∈ acc.filter (matchKey c y), r.Population.isSome) →
    (sumVal (·.Population)
        (cs.foldl (fun a c => applySplitCode a y s c) acc)
      = sumVal (·.Population) acc + s * cs.length)
    ∧ (∀ (c2 : String) (y2 : Int), y2 ≠ y ∨ c2 ∉ cs →
        (cs.foldl (fun a c => applySplitCode a y s c) acc).filter
            (matchKey c2 y2)
          = acc.filter (matchKey c2 y2))
    ∧ (∀ c ∈ cs,
        sumVal (·.Population)
            ((cs.foldl (fun a c => applySplitCode a y s c) acc).filter
              (matchKey c y))
          = sumVal (·.Population) (acc.filter (matchKey c y)) + s
        ∧ (cs.foldl (fun a c => applySplitCode a y s c) acc).filter
            (matchKey c y) ≠ [])
    ∧ ((∀ c ∈ cs, c ≠ haaren_code) →
        (cs.foldl (fun a c => applySplitCode a y s c) acc).filter
            (fun r => r.Municipality_code == haaren_code)
          = acc.filter (fun r => r.Municipality_code == haaren_code)) := by
  intro cs
  induction cs with
  | nil =>
      intro acc _ _
      refine ⟨by simp, fun c2 y2 _ => rfl, fun c hc => absurd hc (by simp),
        fun _ => rfl⟩
  | cons c cs ih =>
      intro acc hnd Hc
      have hcnotin : c ∉ cs := (List.nodup_cons.mp hnd).1
      have hndtl : cs.Nodup := (List.nodup_cons.mp hnd).2
      have hhead := Hc c (by simp)
      have hself := applySplit_self acc y s c hhead.1 hhead.2
      have hpres : ∀ c2 ∈ cs, (applySplitCode acc y s c).filter (matchKey c2 y)
          = acc.filter (matchKey c2 y) := by
        intro c2 hc2
        exact applySplit_preserve_key acc y s c c2 y
          (Or.inl (fun he => hcnotin (he ▸ hc2)))
      have Hc1 : ∀ c2 ∈ cs,
          ((applySplitCode acc y s c).filter (matchKey c2 y)).length ≤ 1 ∧
          ∀ r ∈ (applySplitCode acc y s c).filter (matchKey c2 y),
            r.Population.isSome := by
        intro c2 hc2
        rw [hpres c2 hc2]
        exact Hc c2 (by simp [hc2])
      obtain ⟨ih1, ih2, ih3, ih4⟩ := ih (applySplitCode acc y s c) hndtl Hc1
      rw [show (c :: cs).foldl (fun a c => applySplitCode a y s c) acc
        = cs.foldl (fun a c => applySplitCode a y s c)
            (applySplitCode acc y s c) from rfl]
      refine ⟨?_, ?_, ?_, ?_⟩
      · rw [ih1, hself.2.2]
        push_cast [List.length_cons]
        ring
      · intro c2 y2 h
        have htl : y2 ≠ y ∨ c2 ∉ cs := by
          rcases h with h | h
          · exact Or.inl h
          · exact Or.inr (fun hc2 => h (by simp [hc2]))
        rw [ih2 c2 y2 htl]
        rcases h with h | h
        · exact applySplit_preserve_key acc y s c c2 y2 (Or.inr h)
        · exact applySplit_preserve_key acc y s c c2 y2
            (Or.inl (fun he => h (by simp [he])))
      · intro c1 hc1
        rcases List.mem_cons.mp hc1 with rfl | hc1
        · have heq : (cs.foldl (fun a c => applySplitCode a y s c)
              (applySplitCode acc y s c1)).filter (matchKey c1 y)
              = (applySplitCode acc y s c1).filter (matchKey c1 y) :=
            ih2 c1 y (Or.inr hcnotin)
          rw [heq]
          exact ⟨hself.1, hself.2.1⟩
        · obtain ⟨hsum, hne⟩ := ih3 c1 hc1
          rw [hpres c1 hc1] at hsum
          exact ⟨hsum, hne⟩
      · intro hall
        rw [ih4 (fun c2 hc2 => hall c2 (by simp [hc2]))]
        exact applySplit_preserve_haaren acc y s c (hall c (by simp))

theorem haarenYearStep_eq (df1 acc : List PopRow) (y : Int) :
    haarenYearStep df1 acc y
      = receiving_codes.foldl
          (fun a c => applySplitCode a y (haarenSplitValue df1 y / 4) c)
          acc := rfl

/-- The fold of the Haaren redistribution over distinct years: the total
grows by the year value once per year, each processed (receiving code,
year) group grows by a quarter of the year value and becomes non-empty,
every other group is untouched, and the set of Haaren rows is
untouched. -/
theorem years_fold (df1 : List PopRow) :
    ∀ (ys : List Int) (acc : List PopRow), ys.Nodup →
    (∀ y ∈ ys, ∀ c ∈ receiving_codes,
      (df1.filter (matchKey c y)).length ≤ 1 ∧
      ∀ r ∈ df1.filter (matchKey c y), r.Population.isSome) →
    (∀ y ∈ ys, ∀ c ∈ receiving_codes,
      acc.filter (matchKey c y) = df1.filter (matchKey c y)) →
    (sumVal (·.Population) (ys.foldl (haarenYearStep df1) acc)
      = sumVal (·.Population) acc + (ys.map (haarenSplitValue df1)).sum)
    ∧ (∀ y ∈ ys, ∀ c ∈ receiving_codes,
        sumVal (·.Population)
          ((ys.foldl (haarenYearStep df1) acc).filter (matchKey c y))
          = sumVal (·.Population) (df1.filter (matchKey c y))
            + haarenSplitValue df1 y / 4
        ∧ (ys.foldl (haarenYearStep df1) acc).filter (matchKey c y) ≠ [])
    ∧ (∀ (c2 : String) (y2 : Int),
        ((∀ y ∈ ys, y2 ≠ y) ∨ c2 ∉ receiving_codes) →
        (ys.foldl (haarenYearStep df1) acc).filter (matchKey c2 y2)
          = acc.filter (matchKey c2 y2))
    ∧ ((ys.foldl (haarenYearStep df1) acc).filter
        (fun r => r.Municipality_code == haaren_code)
        = acc.filter (fun r => r.Municipality_code == haaren_code)) := by
  intro ys
  induction ys with
  | nil =>
      intro acc _ _ _
      exact ⟨by simp, fun y hy => absurd hy (by simp),
        fun c2 y2 _ => rfl, rfl⟩
  | cons y ys ih =>
      intro acc hnd Hdf Hacc
      have hynotin : y ∉ ys := (List.nodup_cons.mp hnd).1
      have hndtl : ys.Nodup := (List.nodup_cons.mp hnd).2
      have hrecnodup : receiving_codes.Nodup := by decide
      have hrecnoth : ∀ c ∈ receiving_codes, c ≠ haaren_code := by decide
      have Hcodes : ∀ c ∈ receiving_codes,
          (acc.filter (matchKey c y)).length ≤ 1 ∧
          ∀ r ∈ acc.filter (matchKey c y), r.Population.isSome := by
        intro c hc
        rw [Hacc y (by simp) c hc]
        exact Hdf y (by simp) c hc
      obtain ⟨cf1, cf2, cf3, cf4⟩ :=
        codes_fold y (haarenSplitValue df1 y / 4) receiving_codes acc
          hrecnodup Hcodes
      rw [show (y :: ys).foldl (haarenYearStep df1) acc
        = ys.foldl (haarenYearStep df1) (haarenYearStep df1 acc y) from rfl]
      rw [haarenYearStep_eq df1 acc y] at *
      have Hacc1 : ∀ y2 ∈ ys, ∀ c ∈ receiving_codes,
          (receiving_codes.foldl
            (fun a c => applySplitCode a y (haarenSplitValue df1 y / 4) c)
            acc).filter (matchKey c y2)
          = df1.filter (matchKey c y2) := by
        intro y2 hy2 c hc
        rw [cf2 c y2 (Or.inl (fun he => hynotin (he ▸ hy2)))]
        exact Hacc y2 (by simp [hy2]) c hc
      obtain ⟨ih1, ih2, ih3, ih4⟩ := ih _ hndtl
        (fun y2 hy2 => Hdf y2 (by simp [hy2])) Hacc1
      refine ⟨?_, ?_, ?_, ?_⟩
      · rw [ih1, cf1]
        rw [show (receiving_codes.length : ℚ) = 4 from by norm_num [receiving_codes]]
        rw [List.map_cons, List.sum_cons]
        ring
      · intro y1 hy1 c hc
        rcases List.mem_cons.mp hy1 with rfl | hy1
        · have heq := ih3 c y1 (Or.inl (fun y2 hy2 he => hynotin (he ▸ hy2)))
          rw [heq]
          obtain ⟨hsum, hne⟩ := cf3 c hc
          rw [Hacc y1 (by simp) c hc] at hsum
          exact ⟨hsum, hne⟩
        · exact ih2 y1 hy1 c hc
      · intro c2 y2 h
        have htl : (∀ y1 ∈ ys, y2 ≠ y1) ∨ c2 ∉ receiving_codes := by
          rcases h with h | h
          · exact Or.inl (fun y1 hy1 => h y1 (by simp [hy1]))
          · exact Or.inr h
        rw [ih3 c2 y2 htl]
        rcases h with h | h
        · exact cf2 c2 y2 (Or.inl (h y (by simp)))
        · exact cf2 c2 y2 (Or.inr h)
      · rw [ih4]
        exact cf4 hrecnoth

theorem uniqueFirstAux_congr_seen {β : Type} [DecidableEq β] :
    ∀ (l seen1 seen2 : List β),
      (∀ x ∈ l, (x ∈ seen1 ↔ x ∈ seen2)) →
      uniqueFirstAux l seen1 = uniqueFirstAux l seen2 := by
  intro l
  induction l with
  | nil => intro _ _ _; rfl
  | cons a as ih =>
      intro seen1 seen2 h
      unfold uniqueFirstAux
      by_cases ha : a ∈ seen1
      · rw [if_pos ha, if_pos ((h a (by simp)).mp ha)]
        exact ih seen1 seen2 (fun x hx => h x (by simp [hx]))
      · rw [if_neg ha, if_neg (fun hmem => ha ((h a (by simp)).mpr hmem))]
        congr 1
        apply ih
        intro x hx
        constructor
        · intro hmem
          rcases List.mem_cons.mp hmem with rfl | hmem
          · exact List.mem_cons_self _ _
          · exact List.mem_cons.mpr (Or.inr ((h x (by simp [hx])).mp hmem))
        · intro hmem
          rcases List.mem_cons.mp hmem with rfl | hmem
          · exact List.mem_cons_self _ _
          · exact List.mem_cons.mpr (Or.inr ((h x (by simp [hx])).mpr hmem))

/-- When each year occurs on at most one row and every population is
present, the per-year head values over the distinct years add up to the
population total. -/
theorem valid_year_sum :
    ∀ l : List PopRow,
    (∀ y : Int, (l.filter fun r => r.Year == y).length ≤ 1) →
    (∀ r ∈ l, r.Population.isSome) →
    ((uniqueFirst (l.map (·.Year))).map fun y =>
        ((((l.filter fun r => r.Year == y).head?).bind
          (·.Population)).getD 0)).sum
      = sumVal (·.Population) l := by
  intro l
  induction l with
  | nil => intro _ _; rfl
  | cons a rest ih =>
      intro hlen hsome
      obtain ⟨q, hq⟩ := Option.isSome_iff_exists.mp (hsome a (by simp))
      have hfila : (a :: rest).filter (fun r => r.Year == a.Year)
          = a :: rest.filter (fun r => r.Year == a.Year) := by
        rw [List.filter_cons, if_pos (by simp)]
      have hrestnil : rest.filter (fun r => r.Year == a.Year) = [] := by
        have := hlen a.Year
        rw [hfila] at this
        simp only [List.length_cons] at this
        exact List.length_eq_zero.mp (by omega)
      have hnotin : a.Year ∉ rest.map (·.Year) := by
        intro hmem
        obtain ⟨r, hr, hry⟩ := List.mem_map.mp hmem
        have : r ∈ rest.filter (fun r => r.Year == a.Year) :=
          List.mem_filter.mpr ⟨hr, by simp [hry]⟩
        rw [hrestnil] at this
        cases this
      have huf : uniqueFirst ((a :: rest).map (·.Year))
          = a.Year :: uniqueFirst (rest.map (·.Year)) := by
        rw [List.map_cons]
        rw [show uniqueFirst (a.Year :: rest.map (·.Year))
          = a.Year :: uniqueFirstAux (rest.map (·.Year)) [a.Year] from rfl]
        congr 1
        refine uniqueFirstAux_congr_seen _ [a.Year] [] (fun x hx => ?_)
        constructor
        · intro hmem
          rcases List.mem_cons.mp hmem with rfl | hmem
          · exact absurd hx hnotin
          · cases hmem
        · intro hmem
          cases hmem
      rw [huf, List.map_cons, List.sum_cons]
      rw [show ((((a :: rest).filter fun r => r.Year == a.Year).head?).bind
          (·.Population)).getD 0 = q from by rw [hfila]; simp [hq]]
      rw [List.map_congr_left (g := fun y =>
          ((((rest.filter fun r => r.Year == y).head?).bind
            (·.Population)).getD 0)) ?hcg]
      case hcg =>
        intro y hy
        have hyrest : y ∈ rest.map (·.Year) :=
          (mem_uniqueFirst y _).mp hy
        have hyne : (a.Year == y) = false := by
          simp only [beq_eq_false_iff_ne]
          intro he
          exact hnotin (he ▸ hyrest)
        rw [List.filter_cons, if_neg (by simp [hyne])]
      rw [ih ?hlen2 (fun r hr => hsome r (by simp [hr]))]
      · rw [sumVal_cons, hq]
        simp
      case hlen2 =>
        intro y
        have h1 := hlen y
        rw [List.filter_cons] at h1
        by_cases hay : (a.Year == y) = true
        · rw [if_pos hay] at h1
          simp only [List.length_cons] at h1
          omega
        · rw [if_neg hay] at h1
          exact h1

theorem sumVal_filter_isSome (l : List PopRow) (f : PopRow → Bool) :
    sumVal (·.Population)
        (l.filter fun r => f r && r.Population.isSome)
      = sumVal (·.Population) (l.filter f) := by
  induction l with
  | nil => rfl
  | cons a rest ih =>
      rw [List.filter_cons, List.filter_cons]
      cases hf : f a with
      | false => simp only [Bool.false_and]; exact ih
      | true =>
          cases hp : a.Population with
          | none => simp [hp, sumVal_cons, ih]
          | some q => simp [hp, sumVal_cons, ih]

theorem remap_sumVal (df : List PopRow) :
    sumVal (·.Population) (df.map fun r =>
        { r with Municipality_code := replaceCode r.Municipality_code })
      = sumVal (·.Population) df := by
  unfold sumVal
  rw [List.filterMap_map]
  rfl

/-- The two masks of the split-value computation compose to the valid
Haaren rows of one year. -/
theorem valid_filter_year (df1 : List PopRow) (y : Int) :
    ((df1.filter fun r => r.Municipality_code == haaren_code
        && r.Population.isSome).filter fun r => r.Year == y)
      = haarenValidAt df1 y := by
  rw [List.filter_filter]
  rfl

/-- The boolean and the propositional forms of the Haaren drop filter. -/
theorem filter_ne_haaren (l : List PopRow) :
    (l.filter fun r => r.Municipality_code ≠ haaren_code)
      = l.filter fun r => !(r.Municipality_code == haaren_code) := by
  apply List.filter_congr
  intro a _
  cases hc : a.Municipality_code == haaren_code with
  | true =>
      have he : a.Municipality_code = haaren_code := by simpa using hc
      simp [he]
  | false =>
      have he : a.Municipality_code ≠ haaren_code := by simpa using hc
      simp [he, hc]

/-- Dropping the Haaren rows does not change a receiving (code, year)
group. -/
theorem filter_ne_haaren_matchKey (l : List PopRow) (c : String) (y : Int)
    (hc : c ≠ haaren_code) :
    (l.filter fun r => r.Municipality_code ≠ haaren_code).filter (matchKey c y)
      = l.filter (matchKey c y) := by
  rw [List.filter_filter]
  apply List.filter_congr
  intro r _
  cases hm : matchKey c y r with
  | false => simp [hm]
  | true =>
      have hcode : r.Municipality_code = c := by
        have := (Bool.and_eq_true_iff.mp hm).1
        simpa using this
      simp [hm, hcode, hc]

/-- With exactly one valid Haaren row in a year, the split-value source
is that row's population. -/
theorem haarenSplitValue_eq (df1 : List PopRow) (y : Int) (rH : PopRow)
    (P : ℚ) (h : haarenValidAt df1 y = [rH]) (hP : rH.Population = some P) :
    haarenSplitValue df1 y = P := by
  unfold haarenSplitValue
  rw [valid_filter_year df1 y, h]
  simp [hP]

/-- The group-by key test coincides with the redistribution mask. -/
theorem filter_popKey_eq_matchKey (l : List PopRow) (c : String) (y : Int) :
    (l.filter fun r => decide (popKey r = some (c, y)))
      = l.filter (matchKey c y) := by
  apply List.filter_congr
  intro r _
  show decide (popKey r = some (c, y)) = matchKey c y r
  by_cases h1 : r.Municipality_code = c
  · by_cases h2 : r.Year = y
    · simp [popKey, matchKey, h1, h2]
    · simp [popKey, matchKey, h1, h2]
  · simp [popKey, matchKey, h1]

/-- No harmonized row carries the dissolved Haaren code. -/
theorem harmonize_no_haaren (df0 : List PopRow) :
    ∀ r ∈ popHarmonize df0, r.Municipality_code ≠ haaren_code := by
  intro r hr
  unfold popHarmonize at hr
  obtain ⟨k, hk, hmk⟩ := List.mem_map.mp hr
  have hkmem : k ∈ (((redistributeHaaren (df0.map fun r =>
      { r with Municipality_code := replaceCode r.Municipality_code })).filter
        fun r => r.Municipality_code ≠ haaren_code).filterMap popKey) :=
    List.mem_dedup.mp ((mem_sortKeys popKeyLE _ k).mp hk)
  obtain ⟨m, hm, hkey⟩ := List.mem_filterMap.mp hkmem
  have hmcode : m.Municipality_code = k.1 := by
    unfold popKey at hkey
    cases hkey
    rfl
  have hm2 := List.mem_filter.mp hm
  have hmnh : m.Municipality_code ≠ haaren_code := by
    simpa using hm2.2
  have hrcode : r.Municipality_code = k.1 := by rw [← hmk]
  rw [hrcode, ← hmcode]
  exact hmnh

/-- The final group-by emits, for a key present in the table, exactly one
row carrying the group sum of that key. -/
theorem popGroup_out (df3 : List PopRow) (c : String) (y : Int)
    (hne : df3.filter (matchKey c y) ≠ []) :
    ((groupKeys popKeyLE popKey df3).map fun k =>
        ({ Municipality_code := k.1, Year := k.2,
           Population := sumVal (·.Population)
             (df3.filter fun r => decide (popKey r = some k)) } : PopOutRow)).filter
      (fun r => r.Municipality_code == c && r.Year == y)
      = [{ Municipality_code := c, Year := y,
           Population := sumVal (·.Population) (df3.filter (matchKey c y)) }] := by
  rw [List.filter_map]
  have hmem : (c, y) ∈ groupKeys popKeyLE popKey df3 := by
    obtain ⟨r, hr⟩ := List.exists_mem_of_ne_nil _ hne
    have hrf := List.mem_filter.mp hr
    have h1 : r.Municipality_code = c := by
      have := (Bool.and_eq_true_iff.mp hrf.2).1
      simpa using this
    have h2 : r.Year = y := by
      have := (Bool.and_eq_true_iff.mp hrf.2).2
      simpa using this
    have hkey : popKey r = some (c, y) := by
      unfold popKey
      rw [h1, h2]
    unfold groupKeys
    rw [mem_sortKeys]
    exact List.mem_dedup.mpr (List.mem_filterMap.mpr ⟨r, hrf.1, hkey⟩)
  have hcong : (groupKeys popKeyLE popKey df3).filter
      ((fun r : PopOutRow => r.Municipality_code == c && r.Year == y) ∘ fun k =>
        ({ Municipality_code := k.1, Year := k.2,
           Population := sumVal (·.Population)
             (df3.filter fun r => decide (popKey r = some k)) } : PopOutRow))
      = (groupKeys popKeyLE popKey df3).filter (fun k => decide (k = (c, y))) := by
    apply List.filter_congr
    intro k _
    show (k.1 == c && k.2 == y) = decide (k = (c, y))
    by_cases h1 : k.1 = c
    · by_cases h2 : k.2 = y
      · have hk : k = (c, y) := by
          cases k
          simp_all
        simp [h1, h2, hk]
      · have hk : k ≠ (c, y) := fun he => h2 (by rw [he])
        simp [h1, h2, hk]
    · have hk : k ≠ (c, y) := fun he => h1 (by rw [he])
      simp [h1, hk]
  rw [hcong, nodup_filter_eq_singleton (groupKeys_nodup popKeyLE popKey df3) hmem]
  rw [List.map_cons, List.map_nil, filter_popKey_eq_matchKey]

/-- The Haaren redistribution stage: under a single valid Haaren row per
year and clean receiving groups, the non-Haaren total is conserved and
each receiving group of a processed year grows by a quarter of the
redistributed population. -/
theorem redistribute_spec (df1 : List PopRow)
    (Hy1 : ∀ y : Int, (haarenValidAt df1 y).length ≤ 1)
    (Hs1 : ∀ y : Int, haarenValidAt df1 y ≠ [] → ∀ c ∈ receiving_codes,
      (df1.filter (matchKey c y)).length ≤ 1 ∧
      ∀ r ∈ df1.filter (matchKey c y), r.Population.isSome) :
    sumVal (·.Population) ((redistributeHaaren df1).filter
        fun r => !(r.Municipality_code == haaren_code))
      = sumVal (·.Population) df1
    ∧ (∀ (y : Int) (rH : PopRow) (P : ℚ),
        haarenValidAt df1 y = [rH] → rH.Population = some P →
        ∀ c ∈ receiving_codes,
          sumVal (·.Population) ((redistributeHaaren df1).filter (matchKey c y))
            = sumVal (·.Population) (df1.filter (matchKey c y)) + P / 4
          ∧ (redistributeHaaren df1).filter (matchKey c y) ≠ []) := by
  rw [redistributeHaaren_eq_fold df1]
  have Hdf : ∀ y ∈ uniqueFirst ((df1.filter fun r =>
        r.Municipality_code == haaren_code && r.Population.isSome).map (·.Year)),
      ∀ c ∈ receiving_codes,
      (df1.filter (matchKey c y)).length ≤ 1 ∧
      ∀ r ∈ df1.filter (matchKey c y), r.Population.isSome := by
    intro y hy
    apply Hs1
    have hy2 : y ∈ (df1.filter fun r => r.Municipality_code == haaren_code
        && r.Population.isSome).map (·.Year) := (mem_uniqueFirst y _).mp hy
    obtain ⟨r, hr, hry⟩ := List.mem_map.mp hy2
    intro hnil
    rw [← valid_filter_year df1 y] at hnil
    have hrmem : r ∈ (df1.filter fun r => r.Municipality_code == haaren_code
        && r.Population.isSome).filter (fun r => r.Year == y) :=
      List.mem_filter.mpr ⟨hr, by simp [hry]⟩
    rw [hnil] at hrmem
    cases hrmem
  obtain ⟨yf1, yf2, yf3, yf4⟩ := years_fold df1
    (uniqueFirst ((df1.filter fun r =>
      r.Municipality_code == haaren_code && r.Population.isSome).map (·.Year)))
    df1 (nodup_uniqueFirst _) Hdf (fun y _ c _ => rfl)
  constructor
  · have hsplit := sumVal_split (·.Population)
      (fun r => r.Municipality_code == haaren_code)
      ((uniqueFirst ((df1.filter fun r =>
        r.Municipality_code == haaren_code && r.Population.isSome).map
          (·.Year))).foldl (haarenYearStep df1) df1)
    rw [yf4, yf1] at hsplit
    have hyears : (uniqueFirst ((df1.filter fun r =>
        r.Municipality_code == haaren_code && r.Population.isSome).map
          (·.Year))).map (haarenSplitValue df1)
        = (uniqueFirst ((df1.filter fun r =>
            r.Municipality_code == haaren_code && r.Population.isSome).map
              (·.Year))).map fun y =>
            (((((df1.filter fun r => r.Municipality_code == haaren_code
                && r.Population.isSome).filter fun r =>
                  r.Year == y).head?).bind (·.Population)).getD 0) := rfl
    rw [hyears] at hsplit
    have hlenv : ∀ y : Int, ((df1.filter fun r =>
        r.Municipality_code == haaren_code && r.Population.isSome).filter
          fun r => r.Year == y).length ≤ 1 := by
      intro y
      rw [valid_filter_year df1 y]
      exact Hy1 y
    have hsomev : ∀ r ∈ df1.filter fun r =>
        r.Municipality_code == haaren_code && r.Population.isSome,
        r.Population.isSome := by
      intro r hr
      exact (Bool.and_eq_true_iff.mp (List.mem_filter.mp hr).2).2
    have hvys := valid_year_sum (df1.filter fun r =>
      r.Municipality_code == haaren_code && r.Population.isSome) hlenv hsomev
    have hiso := sumVal_filter_isSome df1
      (fun r => r.Municipality_code == haaren_code)
    linarith [hsplit, hvys, hiso]
  · intro y rH P hH hP c hc
    have hrmem : rH ∈ haarenValidAt df1 y := by
      rw [hH]
      exact List.mem_cons_self _ _
    rw [← valid_filter_year df1 y] at hrmem
    have h1 := List.mem_filter.mp hrmem
    have hy : y ∈ uniqueFirst ((df1.filter fun r =>
        r.Municipality_code == haaren_code && r.Population.isSome).map
          (·.Year)) := by
      apply (mem_uniqueFirst y _).mpr
      refine List.mem_map.mpr ⟨rH, h1.1, ?_⟩
      simpa using h1.2
    obtain ⟨hsum, hne⟩ := yf2 y hy c hc
    rw [haarenSplitValue_eq df1 y rH P hH hP] at hsum
    exact ⟨hsum, hne⟩

/-- clean_population_df's harmonization stage: under the duplicate-free
hypotheses the total population is conserved and each receiving group of
a year with exactly one valid Haaren row of population P emits a single
output row worth its input sum plus P / 4. -/
theorem popHarmonize_spec (df : List PopRow)
    (Hy : ∀ y : Int, (haarenValidAt df y).length ≤ 1)
    (Hs : ∀ y : Int, haarenValidAt df y ≠ [] → ∀ c ∈ receiving_codes,
      (df.filter (matchKey c y)).length ≤ 1 ∧
      ∀ r ∈ df.filter (matchKey c y), r.Population.isSome) :
    (∀ (y : Int) (rH : PopRow) (P : ℚ),
        haarenValidAt df y = [rH] → rH.Population = some P →
        ∀ c ∈ receiving_codes,
          (popOutAt (popHarmonize df) c y).map (·.Population)
            = [sumVal (·.Population) (df.filter (matchKey c y)) + P / 4])
    ∧ popTotal (popHarmonize df) = sumVal (·.Population) df := by
  have hck : ∀ c ∈ receiving_codes,
      c ∉ fused_municipality_map.map Prod.fst := by decide
  have hcv : ∀ c ∈ receiving_codes,
      c ∉ fused_municipality_map.map Prod.snd := by decide
  have hrecne : ∀ c ∈ receiving_codes, c ≠ haaren_code := by decide
  have hval1 : ∀ y : Int, haarenValidAt (df.map fun r =>
      { r with Municipality_code := replaceCode r.Municipality_code }) y
      = haarenValidAt df y := fun y => remap_haarenValid df y
  have hmk1 : ∀ c ∈ receiving_codes, ∀ y : Int,
      ((df.map fun r =>
        { r with Municipality_code := replaceCode r.Municipality_code }).filter
          (matchKey c y))
      = df.filter (matchKey c y) :=
    fun c hc y => remap_filter_matchKey df c y (hck c hc) (hcv c hc)
  have Hy1 : ∀ y : Int, (haarenValidAt (df.map fun r =>
      { r with Municipality_code := replaceCode r.Municipality_code }) y).length
      ≤ 1 := by
    intro y
    rw [hval1 y]
    exact Hy y
  have Hs1 : ∀ y : Int, haarenValidAt (df.map fun r =>
      { r with Municipality_code := replaceCode r.Municipality_code }) y ≠ [] →
      ∀ c ∈ receiving_codes,
      ((df.map fun r =>
        { r with Municipality_code := replaceCode r.Municipality_code }).filter
          (matchKey c y)).length ≤ 1 ∧
      ∀ r ∈ (df.map fun r =>
        { r with Municipality_code := replaceCode r.Municipality_code }).filter
          (matchKey c y), r.Population.isSome := by
    intro y hne c hc
    rw [hval1 y] at hne
    rw [hmk1 c hc y]
    exact Hs y hne c hc
  obtain ⟨hcons, hgrp⟩ := redistribute_spec (df.map fun r =>
    { r with Municipality_code := replaceCode r.Municipality_code }) Hy1 Hs1
  have hphm : popHarmonize df = (groupKeys popKeyLE popKey
      ((redistributeHaaren (df.map fun r =>
        { r with Municipality_code := replaceCode r.Municipality_code })).filter
          fun r => r.Municipality_code ≠ haaren_code)).map (fun k =>
      ({ Municipality_code := k.1, Year := k.2,
         Population := sumVal (·.Population)
           (((redistributeHaaren (df.map fun r =>
             { r with Municipality_code := replaceCode r.Municipality_code })).filter
               fun r => r.Municipality_code ≠ haaren_code).filter
             fun r => decide (popKey r = some k)) } : PopOutRow)) := rfl
  constructor
  · intro y rH P hH hP c hc
    obtain ⟨hsum, hne2⟩ := hgrp y rH P (by rw [hval1 y]; exact hH) hP c hc
    have hd3 : ((redistributeHaaren (df.map fun r =>
        { r with Municipality_code := replaceCode r.Municipality_code })).filter
          fun r => r.Municipality_code ≠ haaren_code).filter (matchKey c y)
        = (redistributeHaaren (df.map fun r =>
            { r with Municipality_code := replaceCode r.Municipality_code })).filter
            (matchKey c y) :=
      filter_ne_haaren_matchKey _ c y (hrecne c hc)
    have hne3 : ((redistributeHaaren (df.map fun r =>
        { r with Municipality_code := replaceCode r.Municipality_code })).filter
          fun r => r.Municipality_code ≠ haaren_code).filter (matchKey c y)
        ≠ [] := by
      rw [hd3]
      exact hne2
    unfold popOutAt
    rw [hphm, popGroup_out _ c y hne3]
    rw [List.map_cons, List.map_nil]
    rw [hd3, hsum, hmk1 c hc y]
  · have e1 : popTotal (popHarmonize df) = sumVal (·.Population)
        ((redistributeHaaren (df.map fun r =>
          { r with Municipality_code := replaceCode r.Municipality_code })).filter
            fun r => r.Municipality_code ≠ haaren_code) := by
      unfold popTotal
      rw [hphm, List.map_map]
      exact grouped_sum_total popKeyLE popKey (·.Population) _ (fun r _ => rfl)
    rw [e1, filter_ne_haaren]
    rw [hcons]
    exact remap_sumVal df

/-- C1 (amended): for every parsed population table in which each year
has at most one valid (non-null) GM0788 row and, in each year holding
such a row, every receiving code GM0824, GM0865, GM0757, GM0855 has at
most one row, all with non-null population, clean_population_df leaves no
GM0788 row in the output, emits for each receiving code of a year whose
single valid GM0788 row carries P exactly one (code, year) output row
worth the input group sum plus P / 4, and conserves the total population.
Without the duplicate-free receiving hypothesis the per-group and total
conservation statements of the original claim fail. -/
theorem C1_redistribution_conservation_amended
    (raw : List PopInRow) (df : List PopRow) (out : List PopOutRow)
    (hparse : popParse raw = some df)
    (hclean : clean_population_df raw = some out)
    (Hy : ∀ y : Int, (haarenValidAt df y).length ≤ 1)
    (Hs : ∀ y : Int, haarenValidAt df y ≠ [] → ∀ c ∈ receiving_codes,
      (popRowsAt df c y).length ≤ 1 ∧
      ∀ r ∈ popRowsAt df c y, r.Population.isSome) :
    (∀ r ∈ out, r.Municipality_code ≠ haaren_code)
    ∧ (∀ (y : Int) (rH : PopRow) (P : ℚ),
        haarenValidAt df y = [rH] → rH.Population = some P →
        ∀ c ∈ receiving_codes,
          (popOutAt out c y).map (·.Population)
            = [sumVal (·.Population) (popRowsAt df c y) + P / 4])
    ∧ popTotal out = sumVal (·.Population) df := by
  have hout : out = popHarmonize df := by
    unfold clean_population_df at hclean
    rw [hparse] at hclean
    simp only [Option.map_some', Option.some.injEq] at hclean
    exact hclean.symm
  subst hout
  obtain ⟨h2, h3⟩ := popHarmonize_spec df Hy (fun y hne c hc => Hs y hne c hc)
  exact ⟨harmonize_no_haaren df, fun y rH P hH hP c hc => h2 y rH P hH hP c hc, h3⟩

set_option maxRecDepth 100000 in
/-- Counterexample to C1 as stated: on a table whose receiving code
GM0824 holds two rows for the Haaren year 2020, the single valid GM0788
row carries 4000, yet the GM0824 output group is 2300, not the claimed
input sum plus 1000 = 1300, and the output total 5300 differs from the
input total 4300: both rows received the quarter split. -/
theorem C1_counterexample :
    popParse popDupIn = some popDupMid
    ∧ (haarenValidAt popDupMid 2020).map (·.Population) = [some 4000]
    ∧ clean_population_df popDupIn = some popDupOut
    ∧ (popOutAt popDupOut "GM0824" 2020).map (·.Population) = [2300]
    ∧ sumVal (·.Population) (popRowsAt popDupMid "GM0824" 2020) + 4000 / 4 = 1300
    ∧ (2300 : ℚ) ≠ 1300
    ∧ popTotal popDupOut = 5300
    ∧ sumVal (·.Population) popDupMid = 4300
    ∧ (5300 : ℚ) ≠ 4300 := by
  refine ⟨by with_unfolding_all rfl, by with_unfolding_all rfl,
    by with_unfolding_all rfl, by with_unfolding_all rfl,
    by with_unfolding_all rfl, by norm_num,
    by with_unfolding_all rfl, by with_unfolding_all rfl, by norm_num⟩

set_option maxRecDepth 100000 in
/-- Witness for the amended C1 on the concrete scenario: the single
GM0788 row (2020, 4000) yields no GM0788 output row, a GM0824 group of
0 + 1000, and a conserved total. -/
theorem C1_redistribution_conservation_amended_witness :
    (∀ r ∈ popScenarioOut, r.Municipality_code ≠ haaren_code)
    ∧ (popOutAt popScenarioOut "GM0824" 2020).map (·.Population)
        = [sumVal (·.Population) (popRowsAt popScenarioMid "GM0824" 2020) + 4000 / 4]
    ∧ popTotal popScenarioOut = sumVal (·.Population) popScenarioMid := by
  have hy : ∀ y : Int, (haarenValidAt popScenarioMid y).length ≤ 1 :=
    fun y => List.length_filter_le _ _
  have hs : ∀ y : Int, haarenValidAt popScenarioMid y ≠ [] →
      ∀ c ∈ receiving_codes,
      (popRowsAt popScenarioMid c y).length ≤ 1 ∧
      ∀ r ∈ popRowsAt popScenarioMid c y, r.Population.isSome := by
    intro y hne c hc
    refine ⟨List.length_filter_le _ _, ?_⟩
    intro r hr
    have hr2 : r ∈ popScenarioMid := (List.mem_filter.mp hr).1
    have hr3 : r = (⟨"GM0788", 2020, some 4000⟩ : PopRow) := by
      simpa [popScenarioMid] using hr2
    rw [hr3]
    rfl
  obtain ⟨h1, h2, h3⟩ := C1_redistribution_conservation_amended popScenario
    popScenarioMid popScenarioOut (by with_unfolding_all rfl)
    (by with_unfolding_all rfl) hy hs
  exact ⟨h1, h2 2020 ⟨"GM0788", 2020, some 4000⟩ 4000
    (by with_unfolding_all rfl) rfl "GM0824" (by decide), h3⟩
